import Mathlib

/-!
Shallow embedding of `flavio/statistics/fits.py` (the `Fit`, `BayesianFit` and
`FastFit` classes) over exact rational arithmetic, together with models of the
external registries that the specification declares as collaborators
(parameter registry, measurement registry, observable registry, distribution
service).  Every definition below is translated from the source file unless its
doc comment says `Modelled from the spec:`, in which case it models repository
code that is not part of the given sources (the registry classes and the
probability-distribution primitives) from the specification text.

Conventions of the embedding:
* Python floats are modelled as rationals (exact real semantics).
* Python dictionaries are modelled as association lists; dictionary equality
  (`==`) is modelled as agreement of lookups on the keys of both sides.
* Fallible Python code is modelled in the `Except PyError` monad; an uncaught
  Python exception is an `Except.error` value.
* Process-wide randomness is determinized through oracle fields of the
  environment (`parSample` for the parameter registry sampler, `measSample`
  for the measurement sampler): draw number `j` of the oracle stands for the
  j-th call of the corresponding `get_random_all`.
-/

/-- Parameter names, which are Python strings in the source. -/
abbrev PName := String

/-- An observable reference: either a bare name or a (name, extra arguments)
tuple, as accepted by `Fit.__init__` in the source. -/
inductive Obs where
  | n (s : String)
  | t (s : String) (args : List Int)
deriving DecidableEq, Repr

/-- The Python exceptions that the embedded code can raise. -/
inductive PyError where
  | valueError (msg : String)
  | assertionError (msg : String)
  | nameError (nm : String)
  | typeError (msg : String)
  | keyError (k : String)
  | indexError
deriving DecidableEq, Repr

/-- Lookup in an association list modelling a Python dictionary (first match;
the embedding keeps keys unique the way Python dictionaries do). -/
def dlookup {β : Type} : List (String × β) → String → Option β
  | [], _ => none
  | kv :: l, k => if kv.1 = k then some kv.2 else dlookup l k

/-- Model of a single Python dictionary assignment `d[k] = v`: replace the
binding if the key is present (keeping its position), else append it. -/
def pySet (d : List (PName × ℚ)) (k : PName) (v : ℚ) : List (PName × ℚ) :=
  if (dlookup d k).isSome then
    d.map (fun kv => if kv.1 = k then (k, v) else kv)
  else d ++ [(k, v)]

/-- Model of Python `dict.update`: assign every binding of `u` in order. -/
def pyUpdate (d : List (PName × ℚ)) (u : List (PName × ℚ)) : List (PName × ℚ) :=
  u.foldl (fun acc kv => pySet acc kv.1 kv.2) d

/-- Model of indexing a 1-D numpy array `x[i]`, raising `IndexError` when the
index is out of range. -/
def pyGet (x : List ℚ) (i : Nat) : Except PyError ℚ :=
  match x.get? i with
  | some v => Except.ok v
  | none => Except.error PyError.indexError

/-- Effectful map over a list in the `Except` monad, mirroring a Python loop
or comprehension that can raise: the first raised exception propagates. -/
def exMapM {α β : Type} (g : α → Except PyError β) : List α → Except PyError (List β)
  | [] => Except.ok []
  | a :: l => do
      let b ← g a
      let bs ← exMapM g l
      Except.ok (b :: bs)

/-- Effectful left fold in the `Except` monad, mirroring a Python accumulation
loop that can raise. -/
def exFoldl {α : Type} (g : ℚ → α → Except PyError ℚ) : ℚ → List α → Except PyError ℚ
  | acc, [] => Except.ok acc
  | acc, a :: l => do
      let acc2 ← g acc a
      exFoldl g acc2 l

/-- Model of Python `list.index(p)`: position of the first occurrence, raising
`ValueError` when the element does not occur. -/
def pyIndex (l : List Obs) (p : Obs) : Except PyError Nat :=
  match l with
  | [] => Except.error (PyError.valueError ("x is not in list"))
  | a :: l2 => if a = p then Except.ok 0 else (pyIndex l2 p).map (fun k => k + 1)

/-- Build one sub-dictionary of `array_to_dict`, mirroring the comprehension
`{ p: x[i + off] for i, p in enumerate(ps) }`. -/
def buildSub (x : List ℚ) : Nat → List PName → Except PyError (List (PName × ℚ))
  | _, [] => Except.ok []
  | off, p :: ps => do
      let v ← pyGet x off
      let rest ← buildSub x (off + 1) ps
      Except.ok ((p, v) :: rest)

/-- Read the values of the listed parameters back out of a sub-dictionary,
mirroring the comprehension `[d[sub][p] for p in ps]` (raising `KeyError` for
a missing key). -/
def readSub (d : List (PName × ℚ)) : List PName → Except PyError (List ℚ)
  | [] => Except.ok []
  | p :: ps => do
      let v ← match dlookup d p with
        | some v => Except.ok v
        | none => Except.error (PyError.keyError p)
      let rest ← readSub d ps
      Except.ok (v :: rest)

/-- Model of Python dictionary equality `d1 == d2` for string-keyed rational
dictionaries: the lookups agree on the keys of both dictionaries. -/
def dictBeq (d1 d2 : List (PName × ℚ)) : Bool :=
  d1.all (fun kv => dlookup d1 kv.1 == dlookup d2 kv.1) &&
  d2.all (fun kv => dlookup d1 kv.1 == dlookup d2 kv.1)

/-- Modelled from the spec: a prior distribution stored by the external
Parameter Registry for one parameter, supporting central-value lookup and
log-probability-density evaluation at a value. -/
structure PDist where
  central : ℚ
  logpdf : ℚ → ℚ

/-- Modelled from the spec: the external Parameter Registry object
(`ParameterConstraints` in the source), an ordered map from parameter names to
their prior distributions.  `params` plays the role of `_parameters`. -/
structure ParObj where
  params : List (PName × PDist)

/-- Modelled from the spec: the data of one experimental constraint
distribution as the Distribution Service declares it: a central value per
constrained observable and, per observable axis, the two extremes of its
support.  The source accesses `constraint.support` as a 2 x n array whose row
0 holds the lower extremes and row 1 the upper extremes (the external
distributions declare `support = [central - k*sigma, central + k*sigma]`), so
`support.T[i]` is the (lower, upper) pair along axis `i`; `supLo` and `supHi`
are those two rows. -/
structure ExpConstraint where
  central : List ℚ
  supLo : List ℚ
  supHi : List ℚ
deriving DecidableEq, Repr

/-- The theory-uncertainty distribution constructed by
`FastFit.make_measurement`.  `normal c v` stands for the source expression
`NormalDistribution(c, sqrt v)` (the source stores the standard deviation
`np.sqrt(cov_sm_p[0,0])`; the embedding records the variance `v`, which
carries the same information since the square root is nonnegative);
`mvnormal c cov` stands for `MultivariateNormalDistribution(c, cov)`. -/
inductive TheoryDist where
  | normal (central : List ℚ) (variance : ℚ)
  | mvnormal (central : List ℚ) (cov : List (List ℚ))
deriving DecidableEq, Repr

/-- Modelled from the spec: the result of
`convolve_distributions([constraint, constraint_th])` kept symbolically as
the ordered pair of its two inputs (experimental first, theory second); its
density is supplied by the opaque Distribution Service evaluator of the
environment. -/
structure PseudoConstraint where
  exp : ExpConstraint
  th : TheoryDist
deriving DecidableEq, Repr

/-- Modelled from the spec: one entry of the external Measurement Registry:
the list of joint constraints, each a distribution together with the list of
observable references it constrains (`_constraints` in the source).  Its
sampler and batched log-probability evaluator live in the environment, keyed
by the measurement name. -/
structure Measurement where
  constraints : List (ExpConstraint × List Obs)
deriving DecidableEq, Repr

/-- Source `all_parameters` of a measurement: all observable references
appearing in its constraint blocks. -/
def Measurement.all_parameters (m : Measurement) : List Obs :=
  (m.constraints.map Prod.snd).flatten

/-- The blocks of one registered pseudo-measurement: one (observable list,
combined constraint) pair per original constraint block. -/
abbrev PseudoM := List (List Obs × PseudoConstraint)

/-- Source `all_parameters` of a pseudo-measurement. -/
def pmAllParams (b : PseudoM) : List Obs := (b.map Prod.fst).flatten

/-- A Wilson-coefficient object: `sm` is the fresh `flavio.WilsonCoefficients()`
(Standard Model); `initialized vals scale` is the result of
`wc_obj.set_initial(vals, scale)`. -/
inductive WCObj where
  | sm
  | initialized (vals : List (PName × ℚ)) (scale : ℚ)

/-- Modelled from the spec: the process-wide state the fit engine interacts
with: the Parameter Registry (`par`, referenced by the fit as `par_obj`), the
Measurement Registry (`measurements` and, for registered pseudo-measurements,
`pseudo`), the Observable Registry (`obsExists` for existence checks and
`predict` for `prediction_par`), the registry samplers (`parSample`,
`measSample`, draw-indexed determinizations of `get_random_all`), and the
batched log-probability evaluators of the Distribution Service (`measLogp`
for a measurement given the prediction dictionary and an exclusion list,
`pseudoLogp` likewise for a pseudo-measurement). -/
structure Env where
  par : ParObj
  measurements : List (String × Measurement)
  pseudo : List (String × PseudoM)
  obsExists : String → Bool
  predict : Obs → List (PName × ℚ) → WCObj → ℚ
  parSample : Nat → PName → ℚ
  measSample : String → Nat → Obs → ℚ
  measLogp : String → List (Obs × ℚ) → List Obs → ℚ
  pseudoLogp : PseudoM → List (Obs × ℚ) → List Obs → ℚ

/-- The arguments of `Fit.__init__` (the `par_obj` argument is the parameter
registry of the environment, modelling the reference the caller passes in). -/
structure InitArgs where
  name : String
  fit_parameters : List PName
  nuisance_parameters : List PName
  observables : List Obs
  fit_wc_names : List PName
  fit_wc_function : List (PName × ℚ) → Option (List (PName × ℚ))
  fit_wc_priors : Option (List (PName × PDist))
  input_scale : ℚ
  exclude_measurements : Option (List String)
  include_measurements : Option (List String)

/-- The state of a constructed fit object: the fields stored by `__init__`
(with `parameters_central` the snapshot `par_obj.get_central_all()` taken at
construction) plus the `dimension` attribute set by `BayesianFit.__init__`
and inherited unchanged by `FastFit`. -/
structure Fit where
  name : String
  parameters_central : List (PName × ℚ)
  fit_parameters : List PName
  nuisance_parameters : List PName
  exclude_measurements : Option (List String)
  include_measurements : Option (List String)
  fit_wc_names : List PName
  fit_wc_function : List (PName × ℚ) → Option (List (PName × ℚ))
  fit_wc_priors : Option (List (PName × PDist))
  observables : List Obs
  input_scale : ℚ
  dimension : Nat

/-- The string used for an observable reference in error messages. -/
def reprObs : Obs → String
  | Obs.n s => s
  | Obs.t s _ => "(" ++ s ++ ", ...)"

/-- The base name of an observable reference (`obs[0]` for a tuple). -/
def obsHead : Obs → String
  | Obs.n s => s
  | Obs.t s _ => s

/-- Check (a) of `Fit.__init__`: every fit and nuisance parameter exists in
the parameter registry, else `AssertionError`. -/
def checkParamsExist (env : Env) : List PName → Except PyError Unit
  | [] => Except.ok ()
  | p :: ps =>
    if p ∈ env.par.params.map Prod.fst then checkParamsExist env ps
    else Except.error (PyError.assertionError ("Parameter " ++ p ++ " not found in Constraints"))

/-- Check (b) of `Fit.__init__`: every observable reference resolves in the
Observable Registry, else `ValueError`. -/
def checkObsExist (env : Env) : List Obs → Except PyError Unit
  | [] => Except.ok ()
  | o :: os =>
    if env.obsExists (obsHead o) then checkObsExist env os
    else Except.error (PyError.valueError ("Observable " ++ reprObs o ++ " not found!"))

/-- All observables constrained by some measurement of the registry
(the union of `m_obj.all_parameters` over `Measurement.instances`). -/
def measuredObs (env : Env) : List Obs :=
  (env.measurements.map (fun nm => nm.2.all_parameters)).flatten

/-- The unconstrained observables, in first-occurrence order (the source
computes the same collection as a Python set; the embedding determinizes the
set iteration order to first-occurrence order). -/
def missingOf (env : Env) (observables : List Obs) : List Obs :=
  observables.dedup.filter (fun o => decide (¬ o ∈ measuredObs env))

/-- Model of `', '.join(items)` over observable references with the running
item index: every item must be a string, else `TypeError` (a tuple-valued
observable reference is not a `str`). -/
def pyJoinGo : Nat → List Obs → Except PyError String
  | _, [] => Except.ok ("")
  | i, o :: os =>
    match o with
    | Obs.n s =>
      match os with
      | [] => Except.ok s
      | _ => do
          let rest ← pyJoinGo (i + 1) os
          Except.ok (s ++ ", " ++ rest)
    | Obs.t _ _ =>
      Except.error (PyError.typeError ("sequence item " ++ toString i ++ ": expected str instance, tuple found"))

/-- The joined listing of offending observable names (total companion of
`pyJoinGo`, equal to it when every item is a bare name). -/
def joinNames : List Obs → String
  | [] => ""
  | o :: os =>
    match os with
    | [] => obsHead o
    | _ => obsHead o ++ ", " ++ joinNames os

/-- Check (c) of `Fit.__init__`: every observable is constrained by some
measurement; on failure the assertion message is built by joining the
offenders, which itself raises `TypeError` when an offender is a tuple. -/
def checkObsMeasured (env : Env) (observables : List Obs) : Except PyError Unit :=
  match missingOf env observables with
  | [] => Except.ok ()
  | missing => do
      let joined ← pyJoinGo 0 missing
      Except.error (PyError.assertionError ("No measurement found for the observables: " ++ joined))

/-- Check (d) of `Fit.__init__`: the exclude and include measurement filters
must not both be given. -/
def checkFilters (a : InitArgs) : Except PyError Unit :=
  match a.exclude_measurements, a.include_measurements with
  | some _, some _ =>
    Except.error (PyError.valueError ("The options exclude_measurements and include_measurements must not be specified simultaneously"))
  | _, _ => Except.ok ()

/-- Check (e) of `Fit.__init__`: no parameter appears as fit and nuisance
parameter (the message formatting of the Python `str(set)` is simplified to a
joined listing; no proved statement depends on this message). -/
def checkDisjoint (a : InitArgs) : Except PyError Unit :=
  match a.fit_parameters.filter (fun p => decide (p ∈ a.nuisance_parameters)) with
  | [] => Except.ok ()
  | l =>
    Except.error (PyError.assertionError ("Parameters appearing as fit_parameters and nuisance_parameters: " ++ String.intercalate (", ") l))

/-- Check (f) of `Fit.__init__`: when Wilson coefficient names are given, the
coefficient function must accept a probe value of `1e-6` for every name. -/
def checkWcFunction (a : InitArgs) : Except PyError Unit :=
  match a.fit_wc_names with
  | [] => Except.ok ()
  | _ =>
    match a.fit_wc_function (a.fit_wc_names.map (fun nm => (nm, (1 : ℚ) / 1000000))) with
    | some _ => Except.ok ()
    | none => Except.error (PyError.valueError ("Error in calling the Wilson coefficient function"))

/-- The fit record stored when every check passes: the fields assigned at the
end of `Fit.__init__`, with `parameters_central = par_obj.get_central_all()`
(a snapshot of the current registry central values) and the `dimension`
attribute assigned in `BayesianFit.__init__`. -/
def Fit.mkRecord (a : InitArgs) (env : Env) : Fit where
  name := a.name
  parameters_central := env.par.params.map (fun pd => (pd.1, pd.2.central))
  fit_parameters := a.fit_parameters
  nuisance_parameters := a.nuisance_parameters
  exclude_measurements := a.exclude_measurements
  include_measurements := a.include_measurements
  fit_wc_names := a.fit_wc_names
  fit_wc_function := a.fit_wc_function
  fit_wc_priors := a.fit_wc_priors
  observables := a.observables
  input_scale := a.input_scale
  dimension := a.fit_parameters.length + a.nuisance_parameters.length + a.fit_wc_names.length

/-- `Fit.__init__` (as run through `BayesianFit.__init__`, which additionally
sets `dimension`; `FastFit.__init__` chains to the same code): the six
validation steps in source order, then the stored record. -/
def Fit.init (a : InitArgs) (env : Env) : Except PyError Fit := do
  checkParamsExist env (a.fit_parameters ++ a.nuisance_parameters)
  checkObsExist env a.observables
  checkObsMeasured env a.observables
  checkFilters a
  checkDisjoint a
  checkWcFunction a
  Except.ok (Fit.mkRecord a env)

/-- `Fit.get_measurements`: the names of all registered measurements whose
constrained-observable set is not disjoint from the fit observables, then
filtered by the exclude list (if given) or the include list (if given).  The
source turns the filtered collections into Python sets; the embedding
determinizes their iteration order to the registry insertion order. -/
def Fit.get_measurements (f : Fit) (env : Env) : List String :=
  let all_measurements :=
    (env.measurements.filter
      (fun nm => decide (∃ o ∈ nm.2.all_parameters, o ∈ f.observables))).map Prod.fst
  match f.exclude_measurements with
  | some ex => all_measurements.filter (fun nm => decide (¬ nm ∈ ex))
  | none =>
    match f.include_measurements with
    | some inc => all_measurements.filter (fun nm => decide (nm ∈ inc))
    | none => all_measurements

/-- The structured dictionary of `BayesianFit.array_to_dict`: the three named
sub-maps `fit_parameters`, `nuisance_parameters`, `fit_wc`. -/
structure FitDict where
  fit_parameters : List (PName × ℚ)
  nuisance_parameters : List (PName × ℚ)
  fit_wc : List (PName × ℚ)
deriving DecidableEq, Repr

/-- The structured dictionary of `FastFit.array_to_dict`: only the two named
sub-maps `fit_parameters` and `fit_wc` (no nuisance slot). -/
structure FastFitDict where
  fit_parameters : List (PName × ℚ)
  fit_wc : List (PName × ℚ)
deriving DecidableEq, Repr

/-- Python equality of two `BayesianFit` structured dictionaries. -/
def FitDict.beq (a b : FitDict) : Bool :=
  dictBeq a.fit_parameters b.fit_parameters &&
  dictBeq a.nuisance_parameters b.nuisance_parameters &&
  dictBeq a.fit_wc b.fit_wc

/-- `BayesianFit.array_to_dict`: the flat vector split into the partitions
`[fit_parameters | nuisance_parameters | fit_wc_names]`. -/
def BayesianFit.array_to_dict (f : Fit) (x : List ℚ) : Except PyError FitDict := do
  let n_fit_p := f.fit_parameters.length
  let n_nui_p := f.nuisance_parameters.length
  let dfit ← buildSub x 0 f.fit_parameters
  let dnui ← buildSub x n_fit_p f.nuisance_parameters
  let dwc ← buildSub x (n_fit_p + n_nui_p) f.fit_wc_names
  Except.ok { fit_parameters := dfit, nuisance_parameters := dnui, fit_wc := dwc }

/-- `BayesianFit.dict_to_array`: the three value segments read back in the
declared parameter order and concatenated (the source writes them into the
three slices of `np.zeros(n_fit_p + n_nui_p + n_wc)`, whose lengths match the
segments exactly). -/
def BayesianFit.dict_to_array (f : Fit) (d : FitDict) : Except PyError (List ℚ) := do
  let a ← readSub d.fit_parameters f.fit_parameters
  let b ← readSub d.nuisance_parameters f.nuisance_parameters
  let c ← readSub d.fit_wc f.fit_wc_names
  Except.ok (a ++ b ++ c)

/-- `FastFit.array_to_dict` (override): the flat vector split into
`[fit_parameters | fit_wc_names]`, with no nuisance slot. -/
def FastFit.array_to_dict (f : Fit) (x : List ℚ) : Except PyError FastFitDict := do
  let n_fit_p := f.fit_parameters.length
  let dfit ← buildSub x 0 f.fit_parameters
  let dwc ← buildSub x n_fit_p f.fit_wc_names
  Except.ok { fit_parameters := dfit, fit_wc := dwc }

/-- `FastFit.dict_to_array` (override): the body evaluates
`np.zeros(n_fit_p + n_nui_p + n_wc)` first, and the name `n_nui_p` is bound
neither in the method nor at module scope, so every call raises `NameError`
before the dictionary is read. -/
def FastFit.dict_to_array (_f : Fit) (_d : FastFitDict) : Except PyError (List ℚ) :=
  Except.error (PyError.nameError ("n_nui_p"))

/-- `BayesianFit.get_par_dict`: the construction-time central-value snapshot,
overridden by the fit- and nuisance-parameter values of the vector. -/
def BayesianFit.get_par_dict (f : Fit) (x : List ℚ) : Except PyError (List (PName × ℚ)) := do
  let d ← BayesianFit.array_to_dict f x
  Except.ok (pyUpdate (pyUpdate f.parameters_central d.fit_parameters) d.nuisance_parameters)

/-- `FastFit.get_par_dict` (override): only the fit-parameter values override
the snapshot. -/
def FastFit.get_par_dict (f : Fit) (x : List ℚ) : Except PyError (List (PName × ℚ)) := do
  let d ← FastFit.array_to_dict f x
  Except.ok (pyUpdate f.parameters_central d.fit_parameters)

/-- `BayesianFit.get_wc_obj`: the Standard-Model coefficients when no Wilson
coefficient is fitted, else a fresh object initialized from
`fit_wc_function(**d['fit_wc'])` at the input scale (an exception raised by
the coefficient function propagates). -/
def BayesianFit.get_wc_obj (f : Fit) (x : List ℚ) : Except PyError WCObj :=
  if f.fit_wc_names.isEmpty then Except.ok WCObj.sm
  else do
    let d ← BayesianFit.array_to_dict f x
    match f.fit_wc_function d.fit_wc with
    | some vals => Except.ok (WCObj.initialized vals f.input_scale)
    | none => Except.error (PyError.typeError ("fit_wc_function call failed"))

/-- `get_wc_obj` as dispatched on a `FastFit` instance: the inherited body
calls `self.array_to_dict`, which resolves to the `FastFit` override. -/
def FastFit.get_wc_obj (f : Fit) (x : List ℚ) : Except PyError WCObj :=
  if f.fit_wc_names.isEmpty then Except.ok WCObj.sm
  else do
    let d ← FastFit.array_to_dict f x
    match f.fit_wc_function d.fit_wc with
    | some vals => Except.ok (WCObj.initialized vals f.input_scale)
    | none => Except.error (PyError.typeError ("fit_wc_function call failed"))

/-- `BayesianFit.get_predictions`: the prediction of every fit observable at
the parameter dictionary and Wilson coefficients of the vector, keyed by the
observable reference. -/
def BayesianFit.get_predictions (f : Fit) (env : Env) (x : List ℚ) :
    Except PyError (List (Obs × ℚ)) := do
  let par_dict ← BayesianFit.get_par_dict f x
  let wc_obj ← BayesianFit.get_wc_obj f x
  Except.ok (f.observables.map (fun o => (o, env.predict o par_dict wc_obj)))

/-- `get_predictions` as dispatched on a `FastFit` instance: the inherited
body calls `self.get_par_dict`, which resolves to the `FastFit` override. -/
def FastFit.get_predictions (f : Fit) (env : Env) (x : List ℚ) :
    Except PyError (List (Obs × ℚ)) := do
  let par_dict ← FastFit.get_par_dict f x
  let wc_obj ← FastFit.get_wc_obj f x
  Except.ok (f.observables.map (fun o => (o, env.predict o par_dict wc_obj)))

/-- Modelled from the spec: `par_obj.get_logprobability_all(vals, exclude)`
of the external Parameter Registry: the sum is taken over the registry
parameters outside the exclusion set, of the log-density of each prior at the
supplied value of its parameter. -/
def getLogprobabilityAll (par : ParObj) (vals : List (PName × ℚ)) (exclude : List PName) : ℚ :=
  ((par.params.filter (fun pd => decide (¬ pd.1 ∈ exclude))).map
    (fun pd => pd.2.logpdf ((dlookup vals pd.1).getD 0))).sum

/-- `BayesianFit.log_prior_parameters`: every registry parameter that is not a
fit or nuisance parameter is excluded from the prior evaluation; the registry
consulted is the live `par_obj` reference. -/
def BayesianFit.log_prior_parameters (f : Fit) (env : Env) (x : List ℚ) : Except PyError ℚ := do
  let par_dict ← BayesianFit.get_par_dict f x
  let exclude_parameters := (par_dict.map Prod.fst).filter
    (fun p => decide (¬ p ∈ f.fit_parameters ∧ ¬ p ∈ f.nuisance_parameters))
  Except.ok (getLogprobabilityAll env.par par_dict exclude_parameters)

/-- `BayesianFit.log_prior_wilson_coeffs`: zero when no coupling priors are
configured, else the summed log-density of the Wilson-coefficient sub-vector
under the coupling-prior registry (whose batched evaluation is modelled from
the spec like `getLogprobabilityAll`). -/
def BayesianFit.log_prior_wilson_coeffs (f : Fit) (x : List ℚ) : Except PyError ℚ :=
  match f.fit_wc_priors with
  | none => Except.ok 0
  | some priors => do
      let d ← BayesianFit.array_to_dict f x
      Except.ok ((priors.map (fun pd => pd.2.logpdf ((dlookup d.fit_wc pd.1).getD 0))).sum)

/-- `Measurement.get_instance` lookup, raising for an unknown name. -/
def getMeas (env : Env) (mname : String) : Except PyError Measurement :=
  match dlookup env.measurements mname with
  | some m => Except.ok m
  | none => Except.error (PyError.keyError mname)

/-- `BayesianFit.log_likelihood`: for every relevant measurement, the joint
log-probability of the predictions, excluding the constrained observables
that are not fit observables, summed over measurements. -/
def BayesianFit.log_likelihood (f : Fit) (env : Env) (x : List ℚ) : Except PyError ℚ := do
  let predictions ← BayesianFit.get_predictions f env x
  exFoldl (fun ll mname => do
      let m ← getMeas env mname
      let exclude_observables :=
        m.all_parameters.filter (fun o => decide (¬ o ∈ f.observables))
      Except.ok (ll + env.measLogp mname predictions exclude_observables))
    0 (Fit.get_measurements f env)

/-- `BayesianFit.log_target`: log-likelihood plus the two prior terms, in
source evaluation order. -/
def BayesianFit.log_target (f : Fit) (env : Env) (x : List ℚ) : Except PyError ℚ := do
  let ll ← BayesianFit.log_likelihood f env x
  let lpp ← BayesianFit.log_prior_parameters f env x
  let lpw ← BayesianFit.log_prior_wilson_coeffs f x
  Except.ok (ll + lpp + lpw)

/-- The mean of a list of rationals (`np.mean` over one row). -/
def listMean (l : List ℚ) : ℚ := l.sum / (l.length : ℚ)

/-- One entry of `np.cov` with the default `ddof=1`: the empirical covariance
of two equal-length rows of observations. -/
def covEntry (a b : List ℚ) : ℚ :=
  (((a.zip b).map (fun xy => (xy.1 - listMean a) * (xy.2 - listMean b))).sum) /
    ((a.length : ℚ) - 1)

/-- The result of `np.cov`, whose implementation ends with
`return c.squeeze()`: for a single variable row the (1, 1) covariance matrix
is squeezed to a 0-dimensional array (`scalar`); for two or more rows
squeezing is the identity and the full matrix is returned (an empty input is
kept as an empty matrix; that case is never produced by the embedded code
for a fit with observables). -/
inductive NpCovResult where
  | scalar (v : ℚ)
  | matrix (m : List (List ℚ))
deriving DecidableEq, Repr

/-- `np.cov` of a matrix whose rows are variables and columns observations,
including the final `squeeze`: a single-row input yields a 0-d scalar. -/
def npCov (rows : List (List ℚ)) : NpCovResult :=
  match rows with
  | [r] => NpCovResult.scalar (covEntry r r)
  | _ => NpCovResult.matrix (rows.map (fun r => rows.map (fun s => covEntry r s)))

/-- `FastFit._get_covariance_sm`: `N` draws of the nuisance parameters over
the current registry central values, every observable evaluated at each draw
under Standard-Model coefficients, and the empirical covariance of the
resulting prediction matrix (a squeezed 0-d scalar when the fit has exactly
one observable). -/
def FastFit._get_covariance_sm (f : Fit) (env : Env) (N : Nat) : NpCovResult :=
  let par_central := env.par.params.map (fun pd => (pd.1, pd.2.central))
  let par_random := (List.range N).map (fun j =>
    pyUpdate par_central (f.nuisance_parameters.map (fun p => (p, env.parSample j p))))
  let pred_arr := f.observables.map (fun o =>
    par_random.map (fun par => env.predict o par WCObj.sm))
  npCov pred_arr

/-- Entry `m[i][j]` of an embedded matrix (indices valid at every use site in
the embedded code, since they come from successful `list.index` calls over
the row dimension). -/
def dg (m : List (List ℚ)) (i j : Nat) : ℚ := (m.getD i []).getD j 0

/-- `cov_sm[ppos][:, ppos]` on a matrix: the submatrix with the listed rows
and columns (numpy advanced indexing copies, so later writes do not alias
`cov_sm`). -/
def submatrix (m : List (List ℚ)) (ppos : List Nat) : List (List ℚ) :=
  ppos.map (fun i => ppos.map (fun j => dg m i j))

/-- `cov_sm[ppos][:, ppos]` applied to an `np.cov` result: indexing the
squeezed 0-dimensional array of a single-observable fit with a position list
raises `IndexError` (too many indices for a 0-dimensional array); on a matrix
it is the copying submatrix. -/
def npCovSub (c : NpCovResult) (ppos : List Nat) : Except PyError (List (List ℚ)) :=
  match c with
  | NpCovResult.scalar _ => Except.error PyError.indexError
  | NpCovResult.matrix m => Except.ok (submatrix m ppos)

/-- The diagonal repair of `make_measurement` for a multivariate block:
`index_zero = np.where(np.diag(cov) == 0)[0]`, and for every `i` in it the
diagonal entry is overwritten with `(r/100000)**2` where
`r = np.diff(constraint.support.T[1])[0]` is the difference of the two support
extremes along axis 1 of the experimental constraint (the same `r` for every
`i`).  Off-diagonal entries are never written. -/
def fixDiag (cov : List (List ℚ)) (lo hi : List ℚ) : List (List ℚ) :=
  let index_zero := (List.range cov.length).filter (fun i => decide (dg cov i i = 0))
  index_zero.foldl (fun acc i =>
    let r := hi.getD 1 0 - lo.getD 1 0
    acc.set i ((acc.getD i []).set i ((r / 100000) ^ 2))) cov

/-- One constraint block of `make_measurement`: the positions of the block
observables in the fit observable list (`list.index`, raising `ValueError`
for an observable outside the list), then the theory covariance submatrix
`cov_sm[ppos][:,ppos]` (raising `IndexError` when the fit has exactly one
observable, because `np.cov` returned a squeezed 0-d array), and the theory
distribution: for a single block observable a univariate Gaussian of that
variance, except that for exactly-zero variance the source evaluates the
unbound name `DeltaDistribution` (absent from the module imports), raising
`NameError`; for several observables a multivariate Gaussian with the
repaired covariance.  The combined constraint convolves the experimental
constraint (first) with the theory distribution (second).  The test
`std == 0` of the source is expressed on the variance, which is equivalent
because `np.sqrt` vanishes exactly on zero for the nonnegative sampled
variance. -/
def processBlock (f : Fit) (cov_sm : NpCovResult) (bl : ExpConstraint × List Obs) :
    Except PyError (List Obs × PseudoConstraint) := do
  let ppos ← exMapM (pyIndex f.observables) bl.2
  let cov_sm_p ← npCovSub cov_sm ppos
  let constraint_th ←
    if ppos.length = 1 then
      if dg cov_sm_p 0 0 = 0 then
        Except.error (PyError.nameError ("DeltaDistribution"))
      else
        Except.ok (TheoryDist.normal bl.1.central (dg cov_sm_p 0 0))
    else
      Except.ok (TheoryDist.mvnormal bl.1.central (fixDiag cov_sm_p bl.1.supLo bl.1.supHi))
  Except.ok (bl.2, { exp := bl.1, th := constraint_th })

/-- `FastFit.make_measurement(N, Nexp)`: the theory covariance from `N`
Standard-Model samples, then one pseudo-measurement per relevant measurement,
named by the fit name concatenated with the measurement name, holding one
combined constraint per original constraint block.  The returned association
list is the set of pseudo-measurements registered in the Measurement Registry
(the source registers them through the `PseudoMeasurement` named-instance
class; on an exception the source leaves any pseudo-measurements registered
so far in place, which no proved statement depends on).  The parameter `Nexp`
is accepted and never read, exactly as in the source body. -/
def FastFit.make_measurement (f : Fit) (env : Env) (N Nexp : Nat) :
    Except PyError (List (String × PseudoM)) :=
  let cov_sm := FastFit._get_covariance_sm f env N
  exMapM (fun mname => do
      let m ← getMeas env mname
      let blocks ← exMapM (processBlock f cov_sm) m.constraints
      Except.ok (f.name ++ mname, blocks))
    (Fit.get_measurements f env)

/-- `FastFit.log_likelihood` (override): for every relevant measurement, the
registered pseudo-measurement is looked up by the concatenated name (raising
`KeyError` when `make_measurement` never registered it), and its joint
log-probability is evaluated at the predictions, excluding constrained
observables outside the fit observable set; summed over measurements. -/
def FastFit.log_likelihood (f : Fit) (env : Env) (x : List ℚ) : Except PyError ℚ := do
  let predictions ← FastFit.get_predictions f env x
  exFoldl (fun ll mname => do
      let pmB ← match dlookup env.pseudo (f.name ++ mname) with
        | some b => Except.ok b
        | none => Except.error (PyError.keyError (f.name ++ mname))
      let exclude_observables :=
        (pmAllParams pmB).filter (fun o => decide (¬ o ∈ f.observables))
      Except.ok (ll + env.pseudoLogp pmB predictions exclude_observables))
    0 (Fit.get_measurements f env)

/-- A prior with central value zero and vanishing log-density, used where the
concrete scenarios do not depend on the prior. -/
def zeroDist : PDist where
  central := 0
  logpdf := fun _ => 0

/-- An environment with empty registries and trivial oracles, the base of the
concrete scenarios. -/
def baseEnv : Env where
  par := { params := [] }
  measurements := []
  pseudo := []
  obsExists := fun _ => true
  predict := fun _ _ _ => 0
  parSample := fun _ _ => 0
  measSample := fun _ _ _ => 0
  measLogp := fun _ _ _ => 0
  pseudoLogp := fun _ _ _ => 0

/-- Construction arguments with empty parameter lists, the base of the
concrete scenarios. -/
def baseArgs : InitArgs where
  name := "F"
  fit_parameters := []
  nuisance_parameters := []
  observables := []
  fit_wc_names := []
  fit_wc_function := fun l => some l
  fit_wc_priors := none
  input_scale := 160
  exclude_measurements := none
  include_measurements := none

/-- A directly assembled fit record for scenarios that quantify over arbitrary
constructed fits. -/
def plainFit (pc : List (PName × ℚ)) (fp nu wc : List PName) (obs : List Obs)
    (ex inc : Option (List String)) : Fit where
  name := "F"
  parameters_central := pc
  fit_parameters := fp
  nuisance_parameters := nu
  exclude_measurements := ex
  include_measurements := inc
  fit_wc_names := wc
  fit_wc_function := fun l => some l
  fit_wc_priors := none
  observables := obs
  input_scale := 160
  dimension := fp.length + nu.length + wc.length

/-- Scenario for C2: two observables `A` and `B`, one measurement `M` with a
single-observable constraint block over `A` and another over `B`, and a
prediction function that is constant in the nuisance parameter, so that the
sampled theory variance of `A` is exactly zero while `np.cov` still returns a
genuine 2 x 2 matrix. -/
def envC2 : Env :=
  { baseEnv with
    par := { params := [("C", zeroDist), ("n", zeroDist)] }
    measurements := [("M", { constraints :=
      [({ central := [1], supLo := [0], supHi := [2] }, [Obs.n ("A")]),
       ({ central := [3], supLo := [2], supHi := [4] }, [Obs.n ("B")])] })]
    predict := fun _ _ _ => 7 }

/-- Construction arguments for the C2 scenario. -/
def argsC2 : InitArgs :=
  { baseArgs with
    fit_parameters := ["C"]
    nuisance_parameters := ["n"]
    observables := [Obs.n ("A"), Obs.n ("B")] }

/-- Single-observable variant of the C2 scenario: a fit over only `O`, whose
theory covariance is a squeezed 0-d array. -/
def envC2s : Env :=
  { baseEnv with
    par := { params := [("C", zeroDist), ("n", zeroDist)] }
    measurements := [("M", { constraints := [({ central := [1], supLo := [0], supHi := [2] }, [Obs.n ("O")])] })]
    predict := fun _ _ _ => 7 }

/-- Construction arguments for the single-observable C2 variant. -/
def argsC2s : InitArgs :=
  { baseArgs with
    fit_parameters := ["C"]
    nuisance_parameters := ["n"]
    observables := [Obs.n ("O")] }

/-- The experimental constraint of the C3 scenario: two observables whose
support ranges differ (range 1 along axis 0, range 3 along axis 1). -/
def cC3 : ExpConstraint where
  central := [1, 2]
  supLo := [0, 0]
  supHi := [1, 3]

/-- Scenario for C3: observables `A` (zero theory variance) and `B` (nonzero
theory variance), one measurement constraining both jointly. -/
def envC3 : Env :=
  { baseEnv with
    par := { params := [("C", zeroDist), ("n", zeroDist)] }
    measurements := [("M", { constraints := [(cC3, [Obs.n ("A"), Obs.n ("B")])] })]
    predict := fun o par _ =>
      match o with
      | Obs.n s => if s = "B" then (dlookup par ("n")).getD 0 else 1
      | _ => 0
    parSample := fun j _ => (j : ℚ) }

/-- Construction arguments for the C3 scenario. -/
def argsC3 : InitArgs :=
  { baseArgs with
    fit_parameters := ["C"]
    nuisance_parameters := ["n"]
    observables := [Obs.n ("A"), Obs.n ("B")] }

/-- Environment for the C4 scenario: parameters `a` and `b`, one measured
observable `O`. -/
def envC4 : Env :=
  { baseEnv with
    par := { params := [("a", zeroDist), ("b", zeroDist)] }
    measurements := [("M", { constraints := [({ central := [1], supLo := [0], supHi := [2] }, [Obs.n ("O")])] })] }

/-- Construction arguments for the C4 counterexample: one fit parameter, one
nuisance parameter, no Wilson coefficients. -/
def argsC4 : InitArgs :=
  { baseArgs with
    fit_parameters := ["a"]
    nuisance_parameters := ["b"]
    observables := [Obs.n ("O")] }

/-- Construction arguments for the C4 witness: additionally one Wilson
coefficient name. -/
def argsW4 : InitArgs :=
  { baseArgs with
    fit_parameters := ["a"]
    nuisance_parameters := ["b"]
    fit_wc_names := ["w"]
    observables := [Obs.n ("O")] }

/-- Environment for the C5 witness: three measurements, two of which
constrain the fit observable `A`. -/
def envW5 : Env :=
  { baseEnv with
    measurements :=
      [("M1", { constraints := [({ central := [0], supLo := [0], supHi := [1] }, [Obs.n ("A")])] }),
       ("K", { constraints := [({ central := [0], supLo := [0], supHi := [1] }, [Obs.n ("A")])] }),
       ("M2", { constraints := [({ central := [0], supLo := [0], supHi := [1] }, [Obs.n ("B")])] })] }

/-- Fit for the C5 witness: observable `A` with an exclude list. -/
def fW5 : Fit := plainFit [] [] [] [] [Obs.n ("A")] (some ["K"]) none

/-- Construction arguments for the C6 counterexample: a tuple-valued
observable reference constrained by no measurement. -/
def argsC6 : InitArgs := { baseArgs with observables := [Obs.t ("O1") [1]] }

/-- Construction arguments for the C6 witness: two bare-name observables
constrained by no measurement. -/
def argsW6 : InitArgs := { baseArgs with observables := [Obs.n ("X1"), Obs.n ("X2")] }

/-- Construction arguments for the C7 witness: both measurement filters
given. -/
def argsW7 : InitArgs :=
  { baseArgs with
    exclude_measurements := some ["M"]
    include_measurements := some ["K"] }

/-- Measurement for the C9 witness: one block constraining `A` and `B`
jointly. -/
def mW9 : Measurement where
  constraints := [({ central := [1, 2], supLo := [0, 0], supHi := [1, 1] }, [Obs.n ("A"), Obs.n ("B")])]

/-- Environment for the C9 witness. -/
def envW9 : Env := { baseEnv with measurements := [("M", mW9)] }

/-- Fit for the C9 witness: only `A` among the fit observables, so the
relevant measurement `M` constrains the outside observable `B`. -/
def fW9 : Fit := plainFit [] [] [] [] [Obs.n ("A")] none none

/-- The prior of parameter `a` before the registry change of the C10
counterexample: central value 0, log-density `-(v^2)`. -/
def dC10a : PDist where
  central := 0
  logpdf := fun v => -(v * v)

/-- The prior of parameter `a` after the registry change of the C10
counterexample: central value 1, the same shape recentered, log-density
`-((v-1)^2)`. -/
def dC10b : PDist where
  central := 1
  logpdf := fun v => -((v - 1) * (v - 1))

/-- Environment of the C10 counterexample at construction time. -/
def envC10 : Env :=
  { baseEnv with
    par := { params := [("a", dC10a)] }
    measurements := [("M", { constraints := [({ central := [1], supLo := [0], supHi := [2] }, [Obs.n ("O")])] })] }

/-- The same environment after the central value of the fit parameter `a` in
the registry changed from 0 to 1. -/
def envC10b : Env := { envC10 with par := { params := [("a", dC10b)] } }

/-- Construction arguments for the C10 counterexample. -/
def argsC10 : InitArgs :=
  { baseArgs with
    fit_parameters := ["a"]
    observables := [Obs.n ("O")] }

/-- Fit for the C10 witness: fit parameter `a`, with a non-varied parameter
`z` present in the construction-time snapshot. -/
def fW10 : Fit := plainFit [("a", 0), ("z", 5)] ["a"] [] [] [Obs.n ("O")] none none

/-- Environment for the C10 witness before the registry change. -/
def envW10 : Env := { baseEnv with par := { params := [("a", dC10a), ("z", dC10a)] } }

/-- The parameter registry of the C10 witness after the prior (and with it
the central value) of the non-varied parameter `z` changed. -/
def qW10 : ParObj := { params := [("a", dC10a), ("z", dC10b)] }

/-- Fit for the C1 witness. -/
def fC1w : Fit := plainFit [] ["a"] ["b"] ["c"] [] none none

/-- Structured dictionary for the C1 witness. -/
def dC1w : FitDict where
  fit_parameters := [("a", 1)]
  nuisance_parameters := [("b", 2)]
  fit_wc := [("c", 3)]

/-- Fit for the C3 witness: two observables. -/
def fW3 : Fit := plainFit [] [] [] [] [Obs.n ("A"), Obs.n ("B")] none none

/-- A parameter whose prior the evaluation pipeline can consult through the
live registry: a fit parameter, a nuisance parameter, or a parameter that was
not part of the construction-time snapshot. -/
def variedOrUnsnapshotted (f : Fit) (p : PName) : Prop :=
  p ∈ f.fit_parameters ∨ p ∈ f.nuisance_parameters ∨ ¬ p ∈ f.parameters_central.map Prod.fst

instance (f : Fit) (p : PName) : Decidable (variedOrUnsnapshotted f p) := by
  unfold variedOrUnsnapshotted
  infer_instance

/-- Two parameter-registry states that agree on the priors of every parameter
the evaluation pipeline can consult; the priors (and in particular the central
values) of the snapshotted non-varied parameters may differ arbitrarily. -/
def ParAgreeOnVaried (f : Fit) (P Q : ParObj) : Prop :=
  List.Forall₂
    (fun a b => a.1 = b.1 ∧ (variedOrUnsnapshotted f a.1 → a.2.logpdf = b.2.logpdf))
    P.params Q.params

instance {ε α : Type} [DecidableEq ε] [DecidableEq α] : DecidableEq (Except ε α) := fun a b =>
  match a, b with
  | Except.ok x, Except.ok y =>
    if h : x = y then isTrue (by rw [h]) else isFalse (by intro hc; cases hc; exact h rfl)
  | Except.error x, Except.error y =>
    if h : x = y then isTrue (by rw [h]) else isFalse (by intro hc; cases hc; exact h rfl)
  | Except.ok _, Except.error _ => isFalse (by intro hc; cases hc)
  | Except.error _, Except.ok _ => isFalse (by intro hc; cases hc)

theorem ebind_ok {α β : Type} (b : α) (g : α → Except PyError β) :
    (Except.ok b >>= g) = g b := rfl

theorem ebind_err {α β : Type} (e : PyError) (g : α → Except PyError β) :
    ((Except.error e : Except PyError α) >>= g) = Except.error e := rfl

theorem emap_err {α β : Type} (e : PyError) (g : α → β) :
    ((Except.error e : Except PyError α).map g) = Except.error e := rfl

theorem buildSub_ok (x : List ℚ) (ps : List PName) :
    ∀ off : Nat, off + ps.length ≤ x.length →
      buildSub x off ps = Except.ok (ps.zip ((x.drop off).take ps.length)) := by
  induction ps with
  | nil => intro off h; rfl
  | cons p ps ih =>
    intro off h
    have hofflt : off < x.length := by
      have := h
      simp only [List.length_cons] at this
      omega
    have hget : x.get? off = some x[off] := by
      rw [List.get?_eq_getElem?, List.getElem?_eq_getElem hofflt]
    have hrec := ih (off + 1) (by simp only [List.length_cons] at h; omega)
    have hdrop : x.drop off = x[off] :: x.drop (off + 1) :=
      List.drop_eq_getElem_cons hofflt
    simp only [buildSub, pyGet, hget, hrec, ebind_ok, hdrop, List.take_succ_cons, List.zip_cons_cons]
    rfl

theorem buildSub_keys (x : List ℚ) (ps : List PName) :
    ∀ (off : Nat) (l : List (PName × ℚ)), buildSub x off ps = Except.ok l →
      l.map Prod.fst = ps := by
  induction ps with
  | nil =>
    intro off l h
    simp only [buildSub] at h
    cases h
    rfl
  | cons p ps ih =>
    intro off l h
    simp only [buildSub] at h
    cases hget : pyGet x off with
    | error e => rw [hget, ebind_err] at h; cases h
    | ok v =>
      rw [hget, ebind_ok] at h
      cases hrec : buildSub x (off + 1) ps with
      | error e => rw [hrec, ebind_err] at h; cases h
      | ok rest =>
        rw [hrec, ebind_ok] at h
        cases h
        simp only [List.map_cons]
        rw [ih (off + 1) rest hrec]

theorem readSub_skip (d : List (PName × ℚ)) (k : PName) (v : ℚ) (ps : List PName)
    (hk : ¬ k ∈ ps) : readSub ((k, v) :: d) ps = readSub d ps := by
  induction ps with
  | nil => rfl
  | cons p ps ih =>
    have hne : k ≠ p := fun h => hk (h ▸ List.mem_cons_self p ps)
    simp only [readSub, dlookup, if_neg hne]
    rw [ih (fun h => hk (List.mem_cons_of_mem p h))]

theorem readSub_zip_self (ps : List PName) (vs : List ℚ)
    (hnd : ps.Nodup) (hlen : vs.length = ps.length) :
    readSub (ps.zip vs) ps = Except.ok vs := by
  induction ps generalizing vs with
  | nil =>
    cases vs with
    | nil => rfl
    | cons v vs => simp at hlen
  | cons p ps ih =>
    cases vs with
    | nil => simp at hlen
    | cons v vs =>
      have hnotin : ¬ p ∈ ps := (List.nodup_cons.mp hnd).1
      have hnd2 : ps.Nodup := (List.nodup_cons.mp hnd).2
      have hlen2 : vs.length = ps.length := by simpa using hlen
      simp only [List.zip_cons_cons, readSub, dlookup, if_pos rfl, ebind_ok]
      rw [readSub_skip (ps.zip vs) p v ps hnotin, ih vs hnd2 hlen2]
      rfl

theorem readSub_lookups (d : List (PName × ℚ)) (ps : List PName)
    (h : ∀ p ∈ ps, (dlookup d p).isSome) :
    readSub d ps = Except.ok (ps.map (fun p => (dlookup d p).getD 0)) := by
  induction ps with
  | nil => rfl
  | cons p ps ih =>
    have hp := h p (List.mem_cons_self p ps)
    cases hl : dlookup d p with
    | none => rw [hl] at hp; simp at hp
    | some v =>
      simp only [readSub, hl, ebind_ok, ih (fun q hq => h q (List.mem_cons_of_mem p hq)),
        List.map_cons, Option.getD_some]

theorem zip_self_map {α β : Type} (l : List α) (g : α → β) :
    l.zip (l.map g) = l.map (fun a => (a, g a)) := by
  induction l with
  | nil => rfl
  | cons a l ih => simp only [List.map_cons, List.zip_cons_cons, ih]

theorem dlookup_map_self (l : List PName) (g : PName → ℚ) (p : PName) (hp : p ∈ l) :
    dlookup (l.map (fun a => (a, g a))) p = some (g p) := by
  induction l with
  | nil => cases hp
  | cons a l ih =>
    simp only [List.map_cons, dlookup]
    by_cases h : a = p
    · rw [if_pos h, h]
    · rw [if_neg h]
      refine ih ?_
      rcases List.mem_cons.mp hp with h2 | h2
      · exact absurd h2.symm h
      · exact h2

theorem dlookup_map_self_not (l : List PName) (g : PName → ℚ) (p : PName) (hp : ¬ p ∈ l) :
    dlookup (l.map (fun a => (a, g a))) p = none := by
  induction l with
  | nil => rfl
  | cons a l ih =>
    have hne : a ≠ p := fun h => hp (h ▸ List.mem_cons_self a l)
    simp only [List.map_cons, dlookup, if_neg hne]
    exact ih (fun h => hp (List.mem_cons_of_mem a h))

theorem dlookup_isSome_of_mem {β : Type} (d : List (String × β)) (kv : String × β)
    (h : kv ∈ d) : (dlookup d kv.1).isSome := by
  induction d with
  | nil => cases h
  | cons a d ih =>
    simp only [dlookup]
    by_cases he : a.1 = kv.1
    · rw [if_pos he]; rfl
    · rw [if_neg he]
      rcases List.mem_cons.mp h with h2 | h2
      · exact absurd (h2 ▸ rfl) he
      · exact ih h2

theorem dictBeq_map_self (ps : List PName) (d : List (PName × ℚ))
    (hk : ∀ p, (dlookup d p).isSome ↔ p ∈ ps) :
    dictBeq (ps.map (fun p => (p, (dlookup d p).getD 0))) d = true := by
  have hlook : ∀ p ∈ ps,
      dlookup (ps.map (fun q => (q, (dlookup d q).getD 0))) p = dlookup d p := by
    intro p hp
    rw [dlookup_map_self ps (fun q => (dlookup d q).getD 0) p hp]
    cases hl : dlookup d p with
    | none =>
      exfalso
      have := (hk p).mpr hp
      rw [hl] at this
      simp at this
    | some v => simp
  simp only [dictBeq, Bool.and_eq_true, List.all_eq_true]
  refine ⟨?_, ?_⟩
  · intro kv hkv
    rcases List.mem_map.mp hkv with ⟨p, hp, rfl⟩
    have := hlook p hp
    simp only [this]
    exact beq_self_eq_true _
  · intro kv hkv
    have hs := dlookup_isSome_of_mem d kv hkv
    have hmem : kv.1 ∈ ps := (hk kv.1).mp hs
    have := hlook kv.1 hmem
    simp only [this]
    exact beq_self_eq_true _

theorem pyIndex_not_mem (l : List Obs) (p : Obs) (h : ¬ p ∈ l) :
    pyIndex l p = Except.error (PyError.valueError ("x is not in list")) := by
  induction l with
  | nil => rfl
  | cons a l ih =>
    have hne : a ≠ p := fun he => h (he ▸ List.mem_cons_self a l)
    simp only [pyIndex, if_neg hne, ih (fun hm => h (List.mem_cons_of_mem a hm)), emap_err]

theorem exMapM_error_of_mem {α β : Type} {l : List α} {g : α → Except PyError β} {a : α}
    (ha : a ∈ l) (he : ∃ e, g a = Except.error e) :
    ∃ e, exMapM g l = Except.error e := by
  induction l with
  | nil => cases ha
  | cons b l ih =>
    cases hgb : g b with
    | error e => exact ⟨e, by simp only [exMapM, hgb, ebind_err]⟩
    | ok v =>
      rcases List.mem_cons.mp ha with h2 | h2
      · rcases he with ⟨e, hge⟩
        rw [h2, hgb] at hge
        cases hge
      · rcases ih h2 with ⟨e, hrec⟩
        exact ⟨e, by simp only [exMapM, hgb, ebind_ok, hrec, ebind_err]⟩

theorem exbind_ok {α β : Type} (b : α) (g : α → Except PyError β) :
    (Except.ok b).bind g = g b := rfl

theorem exbind_err {α β : Type} (e : PyError) (g : α → Except PyError β) :
    (Except.error e : Except PyError α).bind g = Except.error e := rfl

/-- C1: for every `BayesianFit`, `array_to_dict` and `dict_to_array` are exact
inverses on valid inputs (a vector of the fit dimension, respectively a
structured dictionary whose sub-maps are keyed exactly by the declared
parameter names); but for every `FastFit`, `dict_to_array` raises `NameError`
on every input because its body reads the unbound name `n_nui_p`, so the
claimed round trip never holds for `FastFit`. -/
theorem fits_C1 (f : Fit) (x : List ℚ) (d : FitDict) (fF : Fit) (dF : FastFitDict)
    (hnd1 : f.fit_parameters.Nodup) (hnd2 : f.nuisance_parameters.Nodup)
    (hnd3 : f.fit_wc_names.Nodup)
    (hx : x.length = f.fit_parameters.length + f.nuisance_parameters.length + f.fit_wc_names.length)
    (hk1 : ∀ p, (dlookup d.fit_parameters p).isSome ↔ p ∈ f.fit_parameters)
    (hk2 : ∀ p, (dlookup d.nuisance_parameters p).isSome ↔ p ∈ f.nuisance_parameters)
    (hk3 : ∀ p, (dlookup d.fit_wc p).isSome ↔ p ∈ f.fit_wc_names) :
    (BayesianFit.array_to_dict f x).bind (BayesianFit.dict_to_array f) = Except.ok x ∧
    (∃ d2, (BayesianFit.dict_to_array f d).bind (BayesianFit.array_to_dict f) = Except.ok d2 ∧
      FitDict.beq d2 d = true) ∧
    FastFit.dict_to_array fF dF = Except.error (PyError.nameError ("n_nui_p")) := by
  refine ⟨?_, ?_, rfl⟩
  · have h1 := buildSub_ok x f.fit_parameters 0 (by omega)
    have h2 := buildSub_ok x f.nuisance_parameters f.fit_parameters.length (by omega)
    have h3 := buildSub_ok x f.fit_wc_names
      (f.fit_parameters.length + f.nuisance_parameters.length) (by omega)
    simp only [BayesianFit.array_to_dict, h1, h2, h3, ebind_ok, exbind_ok,
      BayesianFit.dict_to_array]
    rw [readSub_zip_self _ _ hnd1 (by rw [List.length_take, List.length_drop]; omega),
      readSub_zip_self _ _ hnd2 (by rw [List.length_take, List.length_drop]; omega),
      readSub_zip_self _ _ hnd3 (by rw [List.length_take, List.length_drop]; omega)]
    simp only [ebind_ok, List.drop_zero]
    have hC : (x.drop (f.fit_parameters.length + f.nuisance_parameters.length)).take
        f.fit_wc_names.length
        = x.drop (f.fit_parameters.length + f.nuisance_parameters.length) := by
      apply List.take_of_length_le
      rw [List.length_drop]; omega
    have hdd : x.drop (f.fit_parameters.length + f.nuisance_parameters.length)
        = (x.drop f.fit_parameters.length).drop f.nuisance_parameters.length := by
      rw [List.drop_drop]
    have hBC : (x.drop f.fit_parameters.length).take f.nuisance_parameters.length ++
        (x.drop (f.fit_parameters.length + f.nuisance_parameters.length)).take
          f.fit_wc_names.length
        = x.drop f.fit_parameters.length := by
      rw [hC, hdd, List.take_append_drop]
    rw [List.append_assoc, hBC, List.take_append_drop]
  · have r1 := readSub_lookups d.fit_parameters f.fit_parameters
      (fun p hp => (hk1 p).mpr hp)
    have r2 := readSub_lookups d.nuisance_parameters f.nuisance_parameters
      (fun p hp => (hk2 p).mpr hp)
    have r3 := readSub_lookups d.fit_wc f.fit_wc_names
      (fun p hp => (hk3 p).mpr hp)
    have b1 := buildSub_ok
      (f.fit_parameters.map (fun p => (dlookup d.fit_parameters p).getD 0) ++
       f.nuisance_parameters.map (fun p => (dlookup d.nuisance_parameters p).getD 0) ++
       f.fit_wc_names.map (fun p => (dlookup d.fit_wc p).getD 0))
      f.fit_parameters 0
      (by simp only [List.length_append, List.length_map]; omega)
    have b2 := buildSub_ok
      (f.fit_parameters.map (fun p => (dlookup d.fit_parameters p).getD 0) ++
       f.nuisance_parameters.map (fun p => (dlookup d.nuisance_parameters p).getD 0) ++
       f.fit_wc_names.map (fun p => (dlookup d.fit_wc p).getD 0))
      f.nuisance_parameters f.fit_parameters.length
      (by simp only [List.length_append, List.length_map]; omega)
    have b3 := buildSub_ok
      (f.fit_parameters.map (fun p => (dlookup d.fit_parameters p).getD 0) ++
       f.nuisance_parameters.map (fun p => (dlookup d.nuisance_parameters p).getD 0) ++
       f.fit_wc_names.map (fun p => (dlookup d.fit_wc p).getD 0))
      f.fit_wc_names (f.fit_parameters.length + f.nuisance_parameters.length)
      (by simp only [List.length_append, List.length_map]; omega)
    have hyA : ((f.fit_parameters.map (fun p => (dlookup d.fit_parameters p).getD 0) ++
        f.nuisance_parameters.map (fun p => (dlookup d.nuisance_parameters p).getD 0) ++
        f.fit_wc_names.map (fun p => (dlookup d.fit_wc p).getD 0)).drop 0).take
          f.fit_parameters.length
        = f.fit_parameters.map (fun p => (dlookup d.fit_parameters p).getD 0) := by
      rw [List.drop_zero, List.append_assoc]
      exact List.take_left' (by rw [List.length_map])
    have hyB : ((f.fit_parameters.map (fun p => (dlookup d.fit_parameters p).getD 0) ++
        f.nuisance_parameters.map (fun p => (dlookup d.nuisance_parameters p).getD 0) ++
        f.fit_wc_names.map (fun p => (dlookup d.fit_wc p).getD 0)).drop
          f.fit_parameters.length).take f.nuisance_parameters.length
        = f.nuisance_parameters.map (fun p => (dlookup d.nuisance_parameters p).getD 0) := by
      rw [List.append_assoc, List.drop_left' (by rw [List.length_map])]
      exact List.take_left' (by rw [List.length_map])
    have hyC : ((f.fit_parameters.map (fun p => (dlookup d.fit_parameters p).getD 0) ++
        f.nuisance_parameters.map (fun p => (dlookup d.nuisance_parameters p).getD 0) ++
        f.fit_wc_names.map (fun p => (dlookup d.fit_wc p).getD 0)).drop
          (f.fit_parameters.length + f.nuisance_parameters.length)).take
          f.fit_wc_names.length
        = f.fit_wc_names.map (fun p => (dlookup d.fit_wc p).getD 0) := by
      rw [List.drop_left' (by simp only [List.length_append, List.length_map])]
      exact List.take_of_length_le (le_of_eq (by rw [List.length_map]))
    rw [hyA, zip_self_map] at b1
    rw [hyB, zip_self_map] at b2
    rw [hyC, zip_self_map] at b3
    refine ⟨FitDict.mk (f.fit_parameters.map (fun a => (a, (dlookup d.fit_parameters a).getD 0)))
      (f.nuisance_parameters.map (fun a => (a, (dlookup d.nuisance_parameters a).getD 0)))
      (f.fit_wc_names.map (fun a => (a, (dlookup d.fit_wc a).getD 0))), ?_, ?_⟩
    · simp only [BayesianFit.dict_to_array, r1, r2, r3, ebind_ok, exbind_ok,
        BayesianFit.array_to_dict, b1, b2, b3]
    · simp only [FitDict.beq, Bool.and_eq_true]
      exact ⟨⟨dictBeq_map_self f.fit_parameters d.fit_parameters hk1,
        dictBeq_map_self f.nuisance_parameters d.nuisance_parameters hk2⟩,
        dictBeq_map_self f.fit_wc_names d.fit_wc hk3⟩

theorem fits_C1_witness :
    [(1 : ℚ), 2, 3].length
      = fC1w.fit_parameters.length + fC1w.nuisance_parameters.length + fC1w.fit_wc_names.length ∧
    ((BayesianFit.array_to_dict fC1w [1, 2, 3]).bind (BayesianFit.dict_to_array fC1w)
        = Except.ok [1, 2, 3] ∧
      (∃ d2, (BayesianFit.dict_to_array fC1w dC1w).bind (BayesianFit.array_to_dict fC1w)
          = Except.ok d2 ∧ FitDict.beq d2 dC1w = true) ∧
      FastFit.dict_to_array fC1w (FastFitDict.mk [] [])
        = Except.error (PyError.nameError ("n_nui_p"))) := by
  refine ⟨by decide, fits_C1 fC1w [1, 2, 3] dC1w fC1w (FastFitDict.mk [] [])
    (by decide) (by decide) (by decide) (by decide) ?_ ?_ ?_⟩
  · intro p
    simp only [fC1w, dC1w, plainFit, dlookup, List.mem_singleton]
    by_cases h : p = "a"
    · simp [h]
    · simp [h]
      exact fun hh => h hh.symm
  · intro p
    simp only [fC1w, dC1w, plainFit, dlookup, List.mem_singleton]
    by_cases h : p = "b"
    · simp [h]
    · simp [h]
      exact fun hh => h hh.symm
  · intro p
    simp only [fC1w, dC1w, plainFit, dlookup, List.mem_singleton]
    by_cases h : p = "c"
    · simp [h]
    · simp [h]
      exact fun hh => h hh.symm

unseal Rat.add Rat.sub Rat.mul Rat.inv Rat.ofScientific in
/-- C2: `make_measurement` never registers the claimed point-mass
pseudo-measurement for a single-observable constraint with exactly-zero
sampled theory variance.  For a fit with two observables whose measurement
has a single-observable block of zero variance (predictions constant in the
nuisance parameter, two theory samples), the `std == 0` branch evaluates the
unbound name `DeltaDistribution` (absent from the module imports) and raises
`NameError`; for a fit with exactly one observable, `np.cov` returns a
squeezed 0-d array and `cov_sm[ppos][:,ppos]` raises `IndexError` before the
branch is even reached.  In both cases an exception is raised, contrary to
the claim. -/
theorem fits_C2_delta_nameerror :
    (Fit.init argsC2 envC2).bind (fun f => FastFit.make_measurement f envC2 2 5000) =
      Except.error (PyError.nameError ("DeltaDistribution")) ∧
    (Fit.init argsC2s envC2s).bind (fun f => FastFit.make_measurement f envC2s 2 5000) =
      Except.error PyError.indexError := by
  constructor
  · decide
  · decide

theorem dg_eq (m : List (List ℚ)) (i j : Nat) :
    dg m i j = ((m[i]?).getD [])[j]?.getD 0 := by
  unfold dg
  rw [List.getD_eq_getElem?_getD, List.getD_eq_getElem?_getD]

theorem dg_set (m : List (List ℚ)) (k : Nat) (row : List ℚ) (i j : Nat) :
    dg (m.set k row) i j = if i = k ∧ k < m.length then row.getD j 0 else dg m i j := by
  rw [dg_eq, dg_eq, List.getElem?_set]
  by_cases h1 : k = i
  · subst h1
    by_cases h2 : k < m.length
    · rw [if_pos rfl, if_pos h2, if_pos (show k = k ∧ k < m.length from ⟨rfl, h2⟩)]
      simp only [Option.getD_some]
      rw [List.getD_eq_getElem?_getD]
    · rw [if_pos rfl, if_neg h2, if_neg (fun hc : k = k ∧ k < m.length => h2 hc.2)]
      rw [List.getElem?_eq_none (l := m) (by omega)]
  · rw [if_neg h1, if_neg (fun hc : i = k ∧ k < m.length => h1 hc.1.symm)]

theorem foldl_fix_dg (v : ℚ) (L : List Nat) :
    ∀ (cov : List (List ℚ)), (∀ k ∈ L, k < cov.length) → (∀ r ∈ cov, r.length = cov.length) →
    ∀ i j, dg (L.foldl (fun acc k => acc.set k ((acc.getD k []).set k v)) cov) i j
      = if i = j ∧ i ∈ L then v else dg cov i j := by
  induction L with
  | nil =>
    intro cov hL hsq i j
    simp
  | cons k L ih =>
    intro cov hL hsq i j
    have hk : k < cov.length := hL k (List.mem_cons_self k L)
    have hrowmem : cov.getD k [] ∈ cov := by
      rw [List.getD_eq_getElem?_getD, List.getElem?_eq_getElem hk]
      exact List.getElem_mem hk
    have hrowlen : (cov.getD k []).length = cov.length := hsq _ hrowmem
    have hlen2 : (cov.set k ((cov.getD k []).set k v)).length = cov.length := List.length_set cov k _
    have hsq2 : ∀ r ∈ cov.set k ((cov.getD k []).set k v),
        r.length = (cov.set k ((cov.getD k []).set k v)).length := by
      intro r hr
      rw [hlen2]
      rcases List.mem_or_eq_of_mem_set hr with h | h
      · exact hsq r h
      · rw [h, List.length_set]
        exact hrowlen
    have hL2 : ∀ k2 ∈ L, k2 < (cov.set k ((cov.getD k []).set k v)).length :=
      fun k2 h2 => hlen2 ▸ hL k2 (List.mem_cons_of_mem k h2)
    rw [List.foldl_cons, ih _ hL2 hsq2 i j]
    have hdg2 : dg (cov.set k ((cov.getD k []).set k v)) i j
        = if i = j ∧ i = k then v else dg cov i j := by
      rw [dg_set]
      by_cases h1 : i = k
      · subst h1
        rw [if_pos ⟨rfl, hk⟩]
        rw [List.getD_eq_getElem?_getD, List.getElem?_set]
        by_cases h2 : i = j
        · subst h2
          rw [if_pos rfl, if_pos (by omega), if_pos ⟨rfl, rfl⟩]
          rfl
        · rw [if_neg h2, if_neg (fun hc : i = j ∧ i = i => h2 hc.1), dg_eq,
            List.getD_eq_getElem?_getD]
      · rw [if_neg (fun hc : i = k ∧ k < cov.length => h1 hc.1),
          if_neg (fun hc : i = j ∧ i = k => h1 hc.2)]
    rw [hdg2]
    by_cases hij : i = j
    · subst hij
      by_cases hiL : i ∈ L
      · simp [hiL, List.mem_cons]
      · by_cases hik : i = k
        · simp [hiL, hik, List.mem_cons]
        · simp [hiL, hik, List.mem_cons]
    · simp [hij]

theorem fixDiag_dg (cov : List (List ℚ)) (lo hi2 : List ℚ) (i j : Nat)
    (hsq : ∀ r ∈ cov, r.length = cov.length) :
    dg (fixDiag cov lo hi2) i j =
      if i = j ∧ i < cov.length ∧ dg cov i i = 0
      then ((hi2.getD 1 0 - lo.getD 1 0) / 100000) ^ 2
      else dg cov i j := by
  have hmem : ∀ a : Nat,
      a ∈ (List.range cov.length).filter (fun i2 => decide (dg cov i2 i2 = 0))
        ↔ a < cov.length ∧ dg cov a a = 0 := by
    intro a
    simp [List.mem_filter, List.mem_range]
  have hL : ∀ k ∈ (List.range cov.length).filter (fun i2 => decide (dg cov i2 i2 = 0)),
      k < cov.length := fun k hk => ((hmem k).mp hk).1
  show dg (((List.range cov.length).filter (fun i2 => decide (dg cov i2 i2 = 0))).foldl
      (fun acc k => acc.set k ((acc.getD k []).set k
        (((hi2.getD 1 0 - lo.getD 1 0) / 100000) ^ 2))) cov) i j = _
  rw [foldl_fix_dg _ _ cov hL hsq i j]
  by_cases hij : i = j
  · subst hij
    by_cases hin : i < cov.length ∧ dg cov i i = 0
    · rw [if_pos ⟨rfl, (hmem i).mpr hin⟩, if_pos ⟨rfl, hin⟩]
    · rw [if_neg (fun hc => hin ((hmem i).mp hc.2)), if_neg (fun hc => hin hc.2)]
  · rw [if_neg (fun hc => hij hc.1), if_neg (fun hc => hij hc.1)]

theorem submatrix_sq (m : List (List ℚ)) (ppos : List Nat) :
    ∀ r ∈ submatrix m ppos, r.length = (submatrix m ppos).length := by
  intro r hr
  unfold submatrix at hr ⊢
  rcases List.mem_map.mp hr with ⟨a, _, rfl⟩
  simp

unseal Rat.add Rat.sub Rat.mul Rat.inv Rat.ofScientific in
/-- C3 counterexample: in the two-observable scenario `envC3`, observable `A`
(index 0) has exactly-zero sampled theory variance, the support range along
axis 0 is 1 and along axis 1 is 3; the diagonal entry written at position
(0,0) is `(3/100000)^2 = 9/10^10`, the support range of axis 1 — not
`(1/100000)^2` as the claim (support range along observable 0's own axis)
requires. -/
theorem fits_C3_counterexample :
    (Fit.init argsC3 envC3).bind (fun f => FastFit.make_measurement f envC3 2 5000) =
      Except.ok [("FM", [([Obs.n ("A"), Obs.n ("B")],
        { exp := cC3,
          th := TheoryDist.mvnormal [1, 2] [[(9 : ℚ)/10000000000, 0], [0, 1/2]] })])] ∧
    ((9 : ℚ)/10000000000) ≠ ((cC3.supHi.getD 0 0 - cC3.supLo.getD 0 0) / 100000) ^ 2 := by
  constructor
  · decide
  · decide

/-- C3 (amended): in the multivariate branch of `make_measurement`, each
exactly-zero diagonal entry `i` of the theory-covariance submatrix is replaced
by `(r/100000)^2` where `r` is the difference of the two support extremes of
the experimental constraint along axis 1 (the constraint's second observable)
— the same `r` for every such `i`, not the range along observable i's own
axis; nonzero diagonal entries and all off-diagonal entries are left exactly
as computed. -/
theorem fits_C3_amended (f : Fit) (cov_sm : List (List ℚ)) (c : ExpConstraint)
    (params : List Obs) (ppos : List Nat) (i j : Nat)
    (hpp : exMapM (pyIndex f.observables) params = Except.ok ppos)
    (hlen : ppos.length ≠ 1) :
    processBlock f (NpCovResult.matrix cov_sm) (c, params) = Except.ok (params,
      PseudoConstraint.mk c (TheoryDist.mvnormal c.central
        (fixDiag (submatrix cov_sm ppos) c.supLo c.supHi))) ∧
    (¬ i = j → dg (fixDiag (submatrix cov_sm ppos) c.supLo c.supHi) i j
      = dg (submatrix cov_sm ppos) i j) ∧
    (i < ppos.length → dg (submatrix cov_sm ppos) i i = 0 →
      dg (fixDiag (submatrix cov_sm ppos) c.supLo c.supHi) i i
        = ((c.supHi.getD 1 0 - c.supLo.getD 1 0) / 100000) ^ 2) ∧
    (dg (submatrix cov_sm ppos) i i ≠ 0 →
      dg (fixDiag (submatrix cov_sm ppos) c.supLo c.supHi) i i
        = dg (submatrix cov_sm ppos) i i) := by
  refine ⟨?_, ?_, ?_, ?_⟩
  · unfold processBlock
    rw [hpp, ebind_ok,
      show npCovSub (NpCovResult.matrix cov_sm) ppos = Except.ok (submatrix cov_sm ppos)
        from rfl,
      ebind_ok, if_neg hlen, ebind_ok]
  · intro hij
    rw [fixDiag_dg _ _ _ _ _ (submatrix_sq cov_sm ppos), if_neg (fun hc => hij hc.1)]
  · intro hi hz
    have hlen2 : (submatrix cov_sm ppos).length = ppos.length := by
      unfold submatrix
      rw [List.length_map]
    rw [fixDiag_dg _ _ _ _ _ (submatrix_sq cov_sm ppos),
      if_pos ⟨rfl, by rw [hlen2]; exact hi, hz⟩]
  · intro hz
    rw [fixDiag_dg _ _ _ _ _ (submatrix_sq cov_sm ppos), if_neg (fun hc => hz hc.2.2)]

/-- C3 witness: the amended statement applied to the concrete two-observable
block of the counterexample scenario. -/
theorem fits_C3_witness :
    exMapM (pyIndex fW3.observables) [Obs.n ("A"), Obs.n ("B")] = Except.ok [0, 1] ∧
    ([0, 1] : List Nat).length ≠ 1 ∧
    (processBlock fW3 (NpCovResult.matrix [[0, 0], [0, 1]]) (cC3, [Obs.n ("A"), Obs.n ("B")]) = Except.ok
      ([Obs.n ("A"), Obs.n ("B")],
        PseudoConstraint.mk cC3 (TheoryDist.mvnormal cC3.central
          (fixDiag (submatrix [[0, 0], [0, 1]] [0, 1]) cC3.supLo cC3.supHi))) ∧
    (¬ (0 : Nat) = 1 → dg (fixDiag (submatrix [[0, 0], [0, 1]] [0, 1]) cC3.supLo cC3.supHi) 0 1
      = dg (submatrix [[0, 0], [0, 1]] [0, 1]) 0 1) ∧
    ((0 : Nat) < ([0, 1] : List Nat).length → dg (submatrix [[0, 0], [0, 1]] [0, 1]) 0 0 = 0 →
      dg (fixDiag (submatrix [[0, 0], [0, 1]] [0, 1]) cC3.supLo cC3.supHi) 0 0
        = ((cC3.supHi.getD 1 0 - cC3.supLo.getD 1 0) / 100000) ^ 2) ∧
    (dg (submatrix [[0, 0], [0, 1]] [0, 1]) 0 0 ≠ 0 →
      dg (fixDiag (submatrix [[0, 0], [0, 1]] [0, 1]) cC3.supLo cC3.supHi) 0 0
        = dg (submatrix [[0, 0], [0, 1]] [0, 1]) 0 0)) :=
  ⟨by decide, by decide,
    fits_C3_amended fW3 [[0, 0], [0, 1]] cC3 [Obs.n ("A"), Obs.n ("B")] [0, 1] 0 1
      (by decide) (by decide)⟩

theorem init_ok_record (a : InitArgs) (env : Env) (f : Fit)
    (h : Fit.init a env = Except.ok f) : f = Fit.mkRecord a env := by
  unfold Fit.init at h
  cases h1 : checkParamsExist env (a.fit_parameters ++ a.nuisance_parameters) with
  | error e => rw [h1, ebind_err] at h; simp at h
  | ok u =>
    cases u
    rw [h1, ebind_ok] at h
    cases h2 : checkObsExist env a.observables with
    | error e => rw [h2, ebind_err] at h; simp at h
    | ok u =>
      cases u
      rw [h2, ebind_ok] at h
      cases h3 : checkObsMeasured env a.observables with
      | error e => rw [h3, ebind_err] at h; simp at h
      | ok u =>
        cases u
        rw [h3, ebind_ok] at h
        cases h4 : checkFilters a with
        | error e => rw [h4, ebind_err] at h; simp at h
        | ok u =>
          cases u
          rw [h4, ebind_ok] at h
          cases h5 : checkDisjoint a with
          | error e => rw [h5, ebind_err] at h; simp at h
          | ok u =>
            cases u
            rw [h5, ebind_ok] at h
            cases h6 : checkWcFunction a with
            | error e => rw [h6, ebind_err] at h; simp at h
            | ok u =>
              cases u
              rw [h6, ebind_ok] at h
              exact (Except.ok.inj h).symm

/-- C4 counterexample: the fit of `argsC4` (one fit parameter, one nuisance
parameter, no Wilson coefficients) reports `dimension = 2`, yet
`FastFit.array_to_dict` consumes the length-1 vector `[5]` completely and
successfully — the flat vector of a `FastFit` is not sized by the reported
dimension. -/
theorem fits_C4_counterexample :
    (Fit.init argsC4 envC4).map (fun f => (f.dimension, FastFit.array_to_dict f [5])) =
      Except.ok (2, Except.ok (FastFitDict.mk [("a", 5)] [])) ∧
    ¬ ((2 : Nat) = [(5 : ℚ)].length) := by
  exact ⟨rfl, by decide⟩

/-- C4 (amended): for every constructed fit, the stored `dimension` attribute
(set in `BayesianFit.__init__` and inherited unchanged by `FastFit`) equals
|fit_parameters| + |nuisance_parameters| + |fit_wc_names|; the flat vector of
`FastFit.array_to_dict` is partitioned `[fit_parameters | fit_wc_names]` with
no nuisance slot, so its length |fit_parameters| + |fit_wc_names| differs from
the reported dimension by exactly |nuisance_parameters|. -/
theorem fits_C4_amended (a : InitArgs) (env : Env) (f : Fit) (x : List ℚ)
    (hinit : Fit.init a env = Except.ok f)
    (hx : x.length = a.fit_parameters.length + a.fit_wc_names.length) :
    f.dimension = a.fit_parameters.length + a.nuisance_parameters.length
      + a.fit_wc_names.length ∧
    FastFit.array_to_dict f x = Except.ok (FastFitDict.mk
      (a.fit_parameters.zip (x.take a.fit_parameters.length))
      (a.fit_wc_names.zip ((x.drop a.fit_parameters.length).take a.fit_wc_names.length))) ∧
    f.dimension = x.length + a.nuisance_parameters.length := by
  have hf := init_ok_record a env f hinit
  subst hf
  have b1 := buildSub_ok x a.fit_parameters 0 (by omega)
  have b2 := buildSub_ok x a.fit_wc_names a.fit_parameters.length (by omega)
  refine ⟨rfl, ?_, ?_⟩
  · simp only [FastFit.array_to_dict, Fit.mkRecord, b1, b2, ebind_ok, List.drop_zero]
  · show a.fit_parameters.length + a.nuisance_parameters.length + a.fit_wc_names.length
      = x.length + a.nuisance_parameters.length
    omega

/-- C4 witness: the amended statement at a concrete constructed `FastFit` with
one fit parameter, one nuisance parameter and one Wilson coefficient. -/
theorem fits_C4_witness :
    [(3 : ℚ), 9].length = argsW4.fit_parameters.length + argsW4.fit_wc_names.length ∧
    ((Fit.mkRecord argsW4 envC4).dimension = argsW4.fit_parameters.length
        + argsW4.nuisance_parameters.length + argsW4.fit_wc_names.length ∧
      FastFit.array_to_dict (Fit.mkRecord argsW4 envC4) [3, 9] = Except.ok (FastFitDict.mk
        (argsW4.fit_parameters.zip (([(3 : ℚ), 9]).take argsW4.fit_parameters.length))
        (argsW4.fit_wc_names.zip ((([(3 : ℚ), 9]).drop argsW4.fit_parameters.length).take
          argsW4.fit_wc_names.length))) ∧
      (Fit.mkRecord argsW4 envC4).dimension
        = [(3 : ℚ), 9].length + argsW4.nuisance_parameters.length) :=
  ⟨by decide, fits_C4_amended argsW4 envC4 (Fit.mkRecord argsW4 envC4) [3, 9] rfl (by decide)⟩

theorem mem_map_fst_filter (l : List (String × Measurement)) (P : String × Measurement → Bool)
    (s : String) :
    s ∈ (l.filter P).map Prod.fst ↔ ∃ m, (s, m) ∈ l ∧ P (s, m) = true := by
  rw [List.mem_map]
  constructor
  · rintro ⟨⟨s2, m⟩, hmem, rfl⟩
    rcases List.mem_filter.mp hmem with ⟨hml, hP⟩
    exact ⟨m, hml, hP⟩
  · rintro ⟨m, hml, hP⟩
    exact ⟨(s, m), List.mem_filter.mpr ⟨hml, hP⟩, rfl⟩

/-- C5: a measurement name is in `get_measurements` exactly when some
registered measurement of that name constrains an observable of the fit, the
name is not in the exclude list (when one was given), and the name is in the
include list (when one was given) — under the construction invariant that the
two filters are not both given. -/
theorem fits_C5_get_measurements (f : Fit) (env : Env) (mname : String)
    (hnb : f.exclude_measurements = none ∨ f.include_measurements = none) :
    mname ∈ Fit.get_measurements f env ↔
      ((∃ m, (mname, m) ∈ env.measurements ∧ ∃ o ∈ m.all_parameters, o ∈ f.observables) ∧
       (∀ ex, f.exclude_measurements = some ex → ¬ mname ∈ ex) ∧
       (∀ inc, f.include_measurements = some inc → mname ∈ inc)) := by
  unfold Fit.get_measurements
  cases hex : f.exclude_measurements with
  | some ex =>
    rw [List.mem_filter, mem_map_fst_filter]
    constructor
    · rintro ⟨⟨m, hml, hP⟩, hexm⟩
      refine ⟨⟨m, hml, of_decide_eq_true hP⟩, ?_, ?_⟩
      · intro ex2 hex2
        cases hex2
        exact of_decide_eq_true hexm
      · intro inc hinc
        rcases hnb with h | h
        · rw [hex] at h; cases h
        · rw [h] at hinc; cases hinc
    · rintro ⟨⟨m, hml, hP⟩, hexcond, _⟩
      exact ⟨⟨m, hml, decide_eq_true hP⟩, decide_eq_true (hexcond ex rfl)⟩
  | none =>
    cases hinc : f.include_measurements with
    | some inc =>
      rw [List.mem_filter, mem_map_fst_filter]
      constructor
      · rintro ⟨⟨m, hml, hP⟩, hincm⟩
        refine ⟨⟨m, hml, of_decide_eq_true hP⟩, ?_, ?_⟩
        · intro ex hex2
          cases hex2
        · intro inc2 hinc2
          cases hinc2
          exact of_decide_eq_true hincm
      · rintro ⟨⟨m, hml, hP⟩, _, hinccond⟩
        exact ⟨⟨m, hml, decide_eq_true hP⟩, decide_eq_true (hinccond inc rfl)⟩
    | none =>
      rw [mem_map_fst_filter]
      constructor
      · rintro ⟨m, hml, hP⟩
        refine ⟨⟨m, hml, of_decide_eq_true hP⟩, ?_, ?_⟩
        · intro ex hex2
          cases hex2
        · intro inc2 hinc2
          cases hinc2
      · rintro ⟨⟨m, hml, hP⟩, _, _⟩
        exact ⟨m, hml, decide_eq_true hP⟩

/-- C5 witness: in a registry with three measurements, of which `M1` and `K`
constrain the fit observable and `K` is excluded, the characterization holds
for the name `M1`. -/
theorem fits_C5_witness :
    (fW5.exclude_measurements = none ∨ fW5.include_measurements = none) ∧
    (("M1" : String) ∈ Fit.get_measurements fW5 envW5 ↔
      ((∃ m, (("M1" : String), m) ∈ envW5.measurements ∧
          ∃ o ∈ m.all_parameters, o ∈ fW5.observables) ∧
       (∀ ex, fW5.exclude_measurements = some ex → ¬ ("M1" : String) ∈ ex) ∧
       (∀ inc, fW5.include_measurements = some inc → ("M1" : String) ∈ inc))) :=
  ⟨Or.inr rfl, fits_C5_get_measurements fW5 envW5 ("M1") (Or.inr rfl)⟩

theorem pyJoinGo_names (l : List Obs) :
    ∀ i : Nat, (∀ o ∈ l, ∃ s, o = Obs.n s) → pyJoinGo i l = Except.ok (joinNames l) := by
  induction l with
  | nil => intro i _; rfl
  | cons o os ih =>
    intro i h
    rcases h o (List.mem_cons_self o os) with ⟨s, rfl⟩
    cases os with
    | nil => rfl
    | cons o2 os2 =>
      have hrec := ih (i + 1) (fun o3 h3 => h o3 (List.mem_cons_of_mem _ h3))
      show (do
          let rest ← pyJoinGo (i + 1) (o2 :: os2)
          Except.ok (s ++ ", " ++ rest)) = Except.ok (joinNames (Obs.n s :: o2 :: os2))
      rw [hrec]
      rfl

theorem checkObsMeasured_redux (env : Env) (obs : List Obs) (m : Obs) (ms : List Obs)
    (hm : missingOf env obs = m :: ms) :
    checkObsMeasured env obs = (do
      let joined ← pyJoinGo 0 (m :: ms)
      (Except.error (PyError.assertionError
        ("No measurement found for the observables: " ++ joined)) : Except PyError Unit)) := by
  unfold checkObsMeasured
  rw [hm]

theorem checkObsMeasured_error (env : Env) (obs : List Obs)
    (h : missingOf env obs ≠ []) : ∃ e, checkObsMeasured env obs = Except.error e := by
  cases hm : missingOf env obs with
  | nil => exact absurd hm h
  | cons m ms =>
    have hredux := checkObsMeasured_redux env obs m ms hm
    cases hj : pyJoinGo 0 (m :: ms) with
    | error e => exact ⟨e, by rw [hredux, hj, ebind_err]⟩
    | ok s => exact ⟨_, by rw [hredux, hj, ebind_ok]⟩

theorem mem_missingOf (env : Env) (obs : List Obs) (o : Obs) :
    o ∈ missingOf env obs ↔ o ∈ obs ∧ ¬ o ∈ measuredObs env := by
  unfold missingOf
  rw [List.mem_filter, List.mem_dedup, decide_eq_true_eq]

/-- C6 counterexample: a tuple-valued observable reference with no measurement
makes construction fail with `TypeError` from the message formatting (joining
a tuple into the assertion string): the raised error is not an
`AssertionError` carrying a listing of the offenders at all (its fixed text
mentions no observable), refuting the claimed error message. -/
theorem fits_C6_counterexample :
    Fit.init argsC6 baseEnv =
      Except.error (PyError.typeError ("sequence item 0: expected str instance, tuple found")) ∧
    ∀ msg, Fit.init argsC6 baseEnv ≠ Except.error (PyError.assertionError msg) := by
  refine ⟨rfl, ?_⟩
  intro msg h
  rw [show Fit.init argsC6 baseEnv = Except.error
    (PyError.typeError ("sequence item 0: expected str instance, tuple found")) from rfl] at h
  cases h

/-- C6 (amended): whenever some listed observable is constrained by no
measurement, construction always fails and no fit object is produced; when
moreover the earlier parameter and observable-existence checks pass and every
offending observable is a bare string name, the error is the `AssertionError`
whose message lists the offenders. -/
theorem fits_C6_amended (a : InitArgs) (env : Env)
    (hmiss : ∃ o ∈ a.observables, ¬ o ∈ measuredObs env) :
    (∃ e, Fit.init a env = Except.error e) ∧
    (checkParamsExist env (a.fit_parameters ++ a.nuisance_parameters) = Except.ok () →
     checkObsExist env a.observables = Except.ok () →
     (∀ o ∈ missingOf env a.observables, ∃ s, o = Obs.n s) →
     Fit.init a env = Except.error (PyError.assertionError
       ("No measurement found for the observables: "
         ++ joinNames (missingOf env a.observables)))) := by
  have hne : missingOf env a.observables ≠ [] := by
    rcases hmiss with ⟨o, ho, hno⟩
    exact List.ne_nil_of_mem ((mem_missingOf env a.observables o).mpr ⟨ho, hno⟩)
  constructor
  · unfold Fit.init
    cases h1 : checkParamsExist env (a.fit_parameters ++ a.nuisance_parameters) with
    | error e => exact ⟨e, rfl⟩
    | ok u =>
      cases u
      cases h2 : checkObsExist env a.observables with
      | error e => exact ⟨e, rfl⟩
      | ok u =>
        cases u
        rcases checkObsMeasured_error env a.observables hne with ⟨e, h3⟩
        exact ⟨e, by rw [h3]; exact rfl⟩
  · intro h1 h2 hstr
    have h3 : checkObsMeasured env a.observables = Except.error (PyError.assertionError
        ("No measurement found for the observables: "
          ++ joinNames (missingOf env a.observables))) := by
      cases hm : missingOf env a.observables with
      | nil => exact absurd hm hne
      | cons m ms =>
        rw [checkObsMeasured_redux env a.observables m ms hm,
          pyJoinGo_names (m :: ms) 0 (by rw [← hm]; exact hstr), ebind_ok]
    unfold Fit.init
    rw [h1, ebind_ok, h2, ebind_ok, h3, ebind_err]

/-- C6 witness: two bare-name observables with no measurements; construction
fails, and with string-valued offenders the assertion message lists both. -/
theorem fits_C6_witness :
    (∃ o ∈ argsW6.observables, ¬ o ∈ measuredObs baseEnv) ∧
    (∃ e, Fit.init argsW6 baseEnv = Except.error e) ∧
    Fit.init argsW6 baseEnv = Except.error (PyError.assertionError
      ("No measurement found for the observables: "
        ++ joinNames (missingOf baseEnv argsW6.observables))) := by
  have hmiss : ∃ o ∈ argsW6.observables, ¬ o ∈ measuredObs baseEnv := by
    refine ⟨Obs.n ("X1"), by decide, by decide⟩
  have hstr : ∀ o ∈ missingOf baseEnv argsW6.observables, ∃ s, o = Obs.n s := by
    intro o ho
    have : o ∈ argsW6.observables := ((mem_missingOf baseEnv argsW6.observables o).mp ho).1
    simp only [argsW6, baseArgs, List.mem_cons, List.mem_singleton] at this
    rcases this with h | h
    · exact ⟨"X1", h⟩
    · rcases h with h | h
      · exact ⟨"X2", h⟩
      · cases h
  refine ⟨hmiss, (fits_C6_amended argsW6 baseEnv hmiss).1,
    (fits_C6_amended argsW6 baseEnv hmiss).2 rfl rfl hstr⟩

/-- C7: when both the exclude and the include measurement filters are given,
construction always fails with an error (either the mutual-exclusion
`ValueError` of check (d), or an earlier validation error), and no fit object
is produced. -/
theorem fits_C7_filters (a : InitArgs) (env : Env)
    (hex : a.exclude_measurements ≠ none) (hin : a.include_measurements ≠ none) :
    ∃ e, Fit.init a env = Except.error e := by
  unfold Fit.init
  cases h1 : checkParamsExist env (a.fit_parameters ++ a.nuisance_parameters) with
  | error e => exact ⟨e, rfl⟩
  | ok u =>
    cases u
    cases h2 : checkObsExist env a.observables with
    | error e => exact ⟨e, rfl⟩
    | ok u =>
      cases u
      cases h3 : checkObsMeasured env a.observables with
      | error e => exact ⟨e, rfl⟩
      | ok u =>
        cases u
        cases hexv : a.exclude_measurements with
        | none => exact absurd hexv hex
        | some ex =>
          cases hinv : a.include_measurements with
          | none => exact absurd hinv hin
          | some inc =>
            have h4 : checkFilters a = Except.error (PyError.valueError
                ("The options exclude_measurements and include_measurements must not be specified simultaneously")) := by
              unfold checkFilters
              rw [hexv, hinv]
            exact ⟨_, by rw [h4]; exact rfl⟩

/-- C7 witness: construction with both filters set fails. -/
theorem fits_C7_witness :
    argsW7.exclude_measurements ≠ none ∧ argsW7.include_measurements ≠ none ∧
    ∃ e, Fit.init argsW7 baseEnv = Except.error e :=
  ⟨by decide, by decide, fits_C7_filters argsW7 baseEnv (by decide) (by decide)⟩

/-- C8: the behaviour of `make_measurement(N, Nexp)` is identical for all
values of `Nexp` (the parameter is never read), and both `make_measurement`
and `FastFit.log_likelihood` are invariant under arbitrary replacement of the
experimental measurement sampler — the oracle consumed only by
`_get_central_covariance_experiment`, which neither function invokes. -/
theorem fits_C8_nexp_independence (f : Fit) (env : Env) (N Ne1 Ne2 : Nat) (x : List ℚ)
    (s : String → Nat → Obs → ℚ) :
    FastFit.make_measurement f env N Ne1 = FastFit.make_measurement f env N Ne2 ∧
    FastFit.make_measurement f { env with measSample := s } N Ne1
      = FastFit.make_measurement f env N Ne1 ∧
    FastFit.log_likelihood f { env with measSample := s } x
      = FastFit.log_likelihood f env x :=
  ⟨rfl, rfl, rfl⟩

/-- C9: `make_measurement` requires every observable of every constraint
block of every relevant measurement to be a member of the fit observable
list: if some relevant measurement constrains an observable outside that
list, `make_measurement` fails, and the failing positional lookup
`self.observables.index(p)` raises `ValueError` — unlike `log_likelihood`,
which restricts each measurement to the overlap via its exclusion set. -/
theorem fits_C9_index_valueerror (f : Fit) (env : Env) (N Ne : Nat) (mname : String)
    (m : Measurement) (c : ExpConstraint) (params : List Obs) (p : Obs)
    (h1 : mname ∈ Fit.get_measurements f env)
    (h2 : dlookup env.measurements mname = some m)
    (h3 : (c, params) ∈ m.constraints)
    (h4 : p ∈ params) (h5 : ¬ p ∈ f.observables) :
    (∃ e, FastFit.make_measurement f env N Ne = Except.error e) ∧
    pyIndex f.observables p = Except.error (PyError.valueError ("x is not in list")) := by
  have hidx := pyIndex_not_mem f.observables p h5
  refine ⟨?_, hidx⟩
  have hblock : ∃ e, processBlock f (FastFit._get_covariance_sm f env N) (c, params)
      = Except.error e := by
    rcases exMapM_error_of_mem (g := pyIndex f.observables) h4 ⟨_, hidx⟩ with ⟨e, hpp⟩
    refine ⟨e, ?_⟩
    unfold processBlock
    rw [hpp]
    exact rfl
  have hmeas : ∃ e2, (do
      let m2 ← getMeas env mname
      let blocks ← exMapM (processBlock f (FastFit._get_covariance_sm f env N)) m2.constraints
      Except.ok (f.name ++ mname, blocks)) = Except.error e2 := by
    rcases exMapM_error_of_mem h3 hblock with ⟨e, hbl⟩
    refine ⟨e, ?_⟩
    rw [show getMeas env mname = Except.ok m from by unfold getMeas; rw [h2]]
    rw [ebind_ok, hbl]
    exact rfl
  rcases exMapM_error_of_mem (l := Fit.get_measurements f env)
    (g := fun mn => do
      let m2 ← getMeas env mn
      let blocks ← exMapM (processBlock f (FastFit._get_covariance_sm f env N)) m2.constraints
      Except.ok (f.name ++ mn, blocks))
    h1 hmeas with ⟨e, htop⟩
  exact ⟨e, htop⟩

/-- C9 witness: a measurement `M` jointly constraining `A` and `B` is
relevant to a fit whose observable list contains only `A`;
`make_measurement` fails with the `ValueError` from the index lookup of `B`. -/
theorem fits_C9_witness :
    ("M" : String) ∈ Fit.get_measurements fW9 envW9 ∧
    dlookup envW9.measurements ("M") = some mW9 ∧
    (ExpConstraint.mk [1, 2] [0, 0] [1, 1], [Obs.n ("A"), Obs.n ("B")]) ∈ mW9.constraints ∧
    Obs.n ("B") ∈ [Obs.n ("A"), Obs.n ("B")] ∧
    ¬ Obs.n ("B") ∈ fW9.observables ∧
    ((∃ e, FastFit.make_measurement fW9 envW9 100 5000 = Except.error e) ∧
      pyIndex fW9.observables (Obs.n ("B"))
        = Except.error (PyError.valueError ("x is not in list"))) :=
  ⟨by decide, rfl, by decide, by decide, by decide,
    fits_C9_index_valueerror fW9 envW9 100 5000 ("M") mW9
      (ExpConstraint.mk [1, 2] [0, 0] [1, 1]) [Obs.n ("A"), Obs.n ("B")] (Obs.n ("B"))
      (by decide) rfl (by decide) (by decide) (by decide)⟩

theorem dlookup_isSome_iff {β : Type} (d : List (String × β)) (p : String) :
    (dlookup d p).isSome ↔ p ∈ d.map Prod.fst := by
  induction d with
  | nil => simp [dlookup]
  | cons kv d ih =>
    simp only [dlookup, List.map_cons, List.mem_cons]
    by_cases h : kv.1 = p
    · simp [h]
    · rw [if_neg h, ih]
      constructor
      · exact Or.inr
      · rintro (h2 | h2)
        · exact absurd h2.symm h
        · exact h2

theorem dlookup_map_replace_ne (d : List (PName × ℚ)) (k : PName) (v : ℚ) (p : PName)
    (h : k ≠ p) :
    dlookup (d.map (fun kv => if kv.1 = k then (k, v) else kv)) p = dlookup d p := by
  induction d with
  | nil => rfl
  | cons kv d ih =>
    simp only [List.map_cons, dlookup]
    by_cases he : kv.1 = k
    · rw [if_pos he, show ((k, v) : PName × ℚ).1 = k from rfl, if_neg h, if_neg (fun hc => h (he ▸ hc))]
      exact ih
    · rw [if_neg he]
      by_cases hp : kv.1 = p
      · rw [if_pos hp, if_pos hp]
      · rw [if_neg hp, if_neg hp]
        exact ih

theorem dlookup_append_single_ne (d : List (PName × ℚ)) (k : PName) (v : ℚ) (p : PName)
    (h : k ≠ p) : dlookup (d ++ [(k, v)]) p = dlookup d p := by
  induction d with
  | nil => simp only [List.nil_append, dlookup, if_neg h]
  | cons kv d ih =>
    simp only [List.cons_append, dlookup]
    by_cases hp : kv.1 = p
    · rw [if_pos hp, if_pos hp]
    · rw [if_neg hp, if_neg hp]
      exact ih

theorem dlookup_pySet_ne (d : List (PName × ℚ)) (k : PName) (v : ℚ) (p : PName)
    (h : k ≠ p) : dlookup (pySet d k v) p = dlookup d p := by
  unfold pySet
  by_cases hs : (dlookup d k).isSome
  · rw [if_pos hs]
    exact dlookup_map_replace_ne d k v p h
  · rw [if_neg hs]
    exact dlookup_append_single_ne d k v p h

theorem dlookup_pyUpdate_notmem (d : List (PName × ℚ)) (u : List (PName × ℚ)) (p : PName)
    (h : ∀ kv ∈ u, kv.1 ≠ p) : dlookup (pyUpdate d u) p = dlookup d p := by
  induction u generalizing d with
  | nil => rfl
  | cons kv u ih =>
    unfold pyUpdate
    rw [List.foldl_cons]
    have step : dlookup (pySet d kv.1 kv.2) p = dlookup d p :=
      dlookup_pySet_ne d kv.1 kv.2 p (h kv (List.mem_cons_self kv u))
    rw [show List.foldl (fun acc kv2 => pySet acc kv2.1 kv2.2) (pySet d kv.1 kv.2) u
        = pyUpdate (pySet d kv.1 kv.2) u from rfl]
    rw [ih (pySet d kv.1 kv.2) (fun kv2 h2 => h kv2 (List.mem_cons_of_mem kv h2)), step]

theorem dlookup_map_replace_self (d : List (PName × ℚ)) (k : PName) (v : ℚ)
    (h : (dlookup d k).isSome) :
    dlookup (d.map (fun kv => if kv.1 = k then (k, v) else kv)) k = some v := by
  induction d with
  | nil => simp [dlookup] at h
  | cons kv d ih =>
    by_cases he : kv.1 = k
    · simp [List.map_cons, if_pos he, dlookup]
    · have h2 : (dlookup d k).isSome := by
        rw [dlookup, if_neg he] at h
        exact h
      simp only [List.map_cons, if_neg he, dlookup]
      exact ih h2

theorem dlookup_append_single_self (d : List (PName × ℚ)) (k : PName) (v : ℚ) :
    (dlookup (d ++ [(k, v)]) k).isSome := by
  induction d with
  | nil => simp [dlookup]
  | cons kv d ih =>
    simp only [List.cons_append, dlookup]
    by_cases hp : kv.1 = k
    · rw [if_pos hp]
      rfl
    · rw [if_neg hp]
      exact ih

theorem pySet_isSome_self (d : List (PName × ℚ)) (k : PName) (v : ℚ) :
    (dlookup (pySet d k v) k).isSome := by
  unfold pySet
  by_cases hs : (dlookup d k).isSome
  · rw [if_pos hs, dlookup_map_replace_self d k v hs]
    rfl
  · rw [if_neg hs]
    exact dlookup_append_single_self d k v

theorem pySet_isSome_mono (d : List (PName × ℚ)) (k : PName) (v : ℚ) (p : PName)
    (h : (dlookup d p).isSome) : (dlookup (pySet d k v) p).isSome := by
  by_cases hk : k = p
  · subst hk
    exact pySet_isSome_self d k v
  · rw [dlookup_pySet_ne d k v p hk]
    exact h

theorem pyUpdate_isSome_mono (d : List (PName × ℚ)) (u : List (PName × ℚ)) (p : PName)
    (h : (dlookup d p).isSome) : (dlookup (pyUpdate d u) p).isSome := by
  induction u generalizing d with
  | nil => exact h
  | cons kv u ih =>
    unfold pyUpdate
    rw [List.foldl_cons]
    exact ih (pySet d kv.1 kv.2) (pySet_isSome_mono d kv.1 kv.2 p h)

theorem getLogprob_agree (P Q : List (PName × PDist)) (vals : List (PName × ℚ))
    (excl : List PName)
    (hF : List.Forall₂ (fun a b => a.1 = b.1 ∧ (¬ a.1 ∈ excl → a.2.logpdf = b.2.logpdf)) P Q) :
    getLogprobabilityAll (ParObj.mk Q) vals excl = getLogprobabilityAll (ParObj.mk P) vals excl := by
  unfold getLogprobabilityAll
  induction hF with
  | nil => rfl
  | cons hab hrest ih =>
    rename_i a b P2 Q2
    obtain ⟨hname, himpl⟩ := hab
    simp only [List.filter_cons]
    by_cases hk : a.1 ∈ excl
    · rw [if_neg (by simp [hname ▸ hk]), if_neg (by simp [hk])]
      exact ih
    · rw [if_pos (by simp [hname ▸ hk]), if_pos (by simp [hk])]
      simp only [List.map_cons, List.sum_cons]
      rw [ih, ← hname, himpl hk]

theorem excl_cond_varied (f : Fit) (pd : List (PName × ℚ)) (d1 d2 : List (PName × ℚ))
    (hpd : pd = pyUpdate (pyUpdate f.parameters_central d1) d2) (p : PName)
    (hn : ¬ p ∈ (pd.map Prod.fst).filter
      (fun p2 => decide (¬ p2 ∈ f.fit_parameters ∧ ¬ p2 ∈ f.nuisance_parameters))) :
    variedOrUnsnapshotted f p := by
  unfold variedOrUnsnapshotted
  by_cases hf : p ∈ f.fit_parameters
  · exact Or.inl hf
  · by_cases hnu : p ∈ f.nuisance_parameters
    · exact Or.inr (Or.inl hnu)
    · refine Or.inr (Or.inr ?_)
      intro hc
      apply hn
      rw [List.mem_filter]
      refine ⟨?_, by simp [hf, hnu]⟩
      rw [← dlookup_isSome_iff, hpd]
      exact pyUpdate_isSome_mono _ d2 p (pyUpdate_isSome_mono _ d1 p
        ((dlookup_isSome_iff f.parameters_central p).mpr hc))

unseal Rat.add Rat.sub Rat.mul Rat.inv Rat.ofScientific in
/-- C10 counterexample: a fit constructed while parameter `a` (a fit
parameter) had central value 0 in the registry; after the registry central
value of `a` changes to 1 (its prior recentered accordingly),
`log_prior_parameters` at the same vector changes from 0 to -1 — a later
change to the registry's central values does affect this evaluation. -/
theorem fits_C10_counterexample :
    (Fit.init argsC10 envC10).bind (fun f => BayesianFit.log_prior_parameters f envC10 [0])
      = Except.ok 0 ∧
    (Fit.init argsC10 envC10).bind (fun f => BayesianFit.log_prior_parameters f envC10b [0])
      = Except.ok (-1) ∧
    (0 : ℚ) ≠ -1 ∧
    envC10.par.params.map (fun pd => (pd.1, pd.2.central)) = [("a", 0)] ∧
    envC10b.par.params.map (fun pd => (pd.1, pd.2.central)) = [("a", 1)] :=
  ⟨by decide, by decide, by decide, by decide, by decide⟩

/-- C10 (amended): every evaluation operation is a pure function of the fit
record, the environment and the vector (the embedding's types make the frame
property explicit: no field of the fit is written); `get_predictions` and
`log_likelihood` are invariant under any replacement of the parameter
registry, because the central values of non-varied parameters come from the
construction-time snapshot `parameters_central` (last clause);
`log_prior_parameters` and `log_target` are invariant under registry changes
that leave the priors of the consulted parameters (fit and nuisance
parameters) untouched — but not under arbitrary central-value changes, see
the counterexample. -/
theorem fits_C10_amended (f : Fit) (env : Env) (q : ParObj) (x : List ℚ)
    (hagree : ParAgreeOnVaried f env.par q) :
    BayesianFit.get_predictions f { env with par := q } x
      = BayesianFit.get_predictions f env x ∧
    BayesianFit.log_likelihood f { env with par := q } x
      = BayesianFit.log_likelihood f env x ∧
    BayesianFit.log_prior_parameters f { env with par := q } x
      = BayesianFit.log_prior_parameters f env x ∧
    BayesianFit.log_target f { env with par := q } x
      = BayesianFit.log_target f env x ∧
    (∀ pd, BayesianFit.get_par_dict f x = Except.ok pd →
      ∀ p, ¬ p ∈ f.fit_parameters → ¬ p ∈ f.nuisance_parameters →
        dlookup pd p = dlookup f.parameters_central p) := by
  have hC : BayesianFit.log_prior_parameters f { env with par := q } x
      = BayesianFit.log_prior_parameters f env x := by
    unfold BayesianFit.log_prior_parameters
    cases hpd : BayesianFit.get_par_dict f x with
    | error e => rfl
    | ok pd =>
      unfold BayesianFit.get_par_dict at hpd
      cases had : BayesianFit.array_to_dict f x with
      | error e =>
        rw [had, ebind_err] at hpd
        cases hpd
      | ok d =>
        rw [had, ebind_ok] at hpd
        have hpd2 := Except.ok.inj hpd
        show Except.ok (getLogprobabilityAll q pd ((pd.map Prod.fst).filter
            (fun p => decide (¬ p ∈ f.fit_parameters ∧ ¬ p ∈ f.nuisance_parameters))))
          = Except.ok (getLogprobabilityAll env.par pd ((pd.map Prod.fst).filter
            (fun p => decide (¬ p ∈ f.fit_parameters ∧ ¬ p ∈ f.nuisance_parameters))))
        have hF : List.Forall₂
            (fun a b => a.1 = b.1 ∧ (¬ a.1 ∈ (pd.map Prod.fst).filter
              (fun p => decide (¬ p ∈ f.fit_parameters ∧ ¬ p ∈ f.nuisance_parameters))
                → a.2.logpdf = b.2.logpdf))
            env.par.params q.params :=
          List.Forall₂.imp
            (fun a b hab => ⟨hab.1, fun hn => hab.2
              (excl_cond_varied f pd d.fit_parameters d.nuisance_parameters hpd2.symm _ hn)⟩)
            hagree
        exact congrArg Except.ok (getLogprob_agree env.par.params q.params pd _ hF)
  refine ⟨rfl, rfl, hC, ?_, ?_⟩
  · unfold BayesianFit.log_target
    rw [show BayesianFit.log_likelihood f { env with par := q } x
        = BayesianFit.log_likelihood f env x from rfl, hC]
  · intro pd hpd p hf hnu
    unfold BayesianFit.get_par_dict at hpd
    cases had : BayesianFit.array_to_dict f x with
    | error e =>
      rw [had, ebind_err] at hpd
      cases hpd
    | ok d =>
      rw [had, ebind_ok] at hpd
      have hpd2 := Except.ok.inj hpd
      unfold BayesianFit.array_to_dict at had
      cases b1 : buildSub x 0 f.fit_parameters with
      | error e => rw [b1, ebind_err] at had; cases had
      | ok l1 =>
        rw [b1, ebind_ok] at had
        cases b2 : buildSub x f.fit_parameters.length f.nuisance_parameters with
        | error e => rw [b2, ebind_err] at had; cases had
        | ok l2 =>
          rw [b2, ebind_ok] at had
          cases b3 : buildSub x (f.fit_parameters.length + f.nuisance_parameters.length)
              f.fit_wc_names with
          | error e => rw [b3, ebind_err] at had; cases had
          | ok l3 =>
            rw [b3, ebind_ok] at had
            have hd := Except.ok.inj had
            have hk1 : l1.map Prod.fst = f.fit_parameters := buildSub_keys x f.fit_parameters 0 l1 b1
            have hk2 : l2.map Prod.fst = f.nuisance_parameters :=
              buildSub_keys x f.nuisance_parameters f.fit_parameters.length l2 b2
            have hfp : d.fit_parameters = l1 := by rw [← hd]
            have hnp : d.nuisance_parameters = l2 := by rw [← hd]
            rw [← hpd2, hnp, hfp]
            rw [dlookup_pyUpdate_notmem _ l2 p (fun kv hkv hc => hnu (by
              rw [← hk2]
              exact List.mem_map.mpr ⟨kv, hkv, hc⟩))]
            rw [dlookup_pyUpdate_notmem _ l1 p (fun kv hkv hc => hf (by
              rw [← hk1]
              exact List.mem_map.mpr ⟨kv, hkv, hc⟩))]

/-- C10 witness: the amended statement at a concrete fit with fit parameter
`a` and a snapshotted non-varied parameter `z`, against a registry change
that replaces only the prior of `z`. -/
theorem fits_C10_witness :
    ParAgreeOnVaried fW10 envW10.par qW10 ∧
    (BayesianFit.get_predictions fW10 { envW10 with par := qW10 } [0]
        = BayesianFit.get_predictions fW10 envW10 [0] ∧
      BayesianFit.log_likelihood fW10 { envW10 with par := qW10 } [0]
        = BayesianFit.log_likelihood fW10 envW10 [0] ∧
      BayesianFit.log_prior_parameters fW10 { envW10 with par := qW10 } [0]
        = BayesianFit.log_prior_parameters fW10 envW10 [0] ∧
      BayesianFit.log_target fW10 { envW10 with par := qW10 } [0]
        = BayesianFit.log_target fW10 envW10 [0] ∧
      (∀ pd, BayesianFit.get_par_dict fW10 [0] = Except.ok pd →
        ∀ p, ¬ p ∈ fW10.fit_parameters → ¬ p ∈ fW10.nuisance_parameters →
          dlookup pd p = dlookup fW10.parameters_central p)) := by
  have hagree : ParAgreeOnVaried fW10 envW10.par qW10 := by
    unfold ParAgreeOnVaried
    exact List.Forall₂.cons ⟨rfl, fun _ => rfl⟩
      (List.Forall₂.cons ⟨rfl, fun h => absurd h (by decide)⟩ List.Forall₂.nil)
  exact ⟨hagree, fits_C10_amended fW10 envW10 qW10 [0] hagree⟩
